import Mathlib

/-!
# OpenDDL structure accessors and the OpenGEX schema table

A shallow embedding of `OpenDdl/Structure.h` (the read-only handle over a parsed
document) and of the constant tables of `openGexSpec.hpp`.

Conventions of the embedding:

* `std::vector` arenas are lists, `std::size_t` indices are natural numbers;
* a `std::reference_wrapper` into the structure array is the index of the record
  it refers to, together with the proof that the record exists;
* assertions are enabled: a failed `CORRADE_ASSERT` prints its message and stops the
  call; a call either yields a value, stops at such an assertion, or indexes an arena
  outside its bounds, which the source leaves undefined: the three cases are the
  three constructors of `Outcome`;
* the build is the desktop one: neither `MAGNUM_TARGET_WEBGL` nor
  `MAGNUM_TARGET_GLES` is defined, so the 64-bit and `Double` types exist.
-/

namespace OpenDdl

/-! ## Type tags -/

/-- Modelled from the spec: the enumeration `OpenDdl::Type` is declared in `Document.h`,
which is not among the sources. It is an `enum class` over an unsigned integer; the
number is kept, because `Structure::type()` compares stored tags with `std::min` and has
to cope with stored values beyond the last enumerator. -/
structure TypeTag where
  /-- The underlying unsigned value of the enumerator. -/
  val : Nat
deriving DecidableEq, Repr

namespace TypeTag

/-- Modelled from the spec: first enumerator of `OpenDdl::Type`, in the order of the spec's
list "Bool, UnsignedByte, Byte, UnsignedShort, Short, UnsignedInt, Int, UnsignedLong, Long,
Float, Double, String, Reference, Type, or Custom". -/
def Bool : TypeTag := ⟨0⟩
/-- Modelled from the spec: enumerator `Type::UnsignedByte`. -/
def UnsignedByte : TypeTag := ⟨1⟩
/-- Modelled from the spec: enumerator `Type::Byte`. -/
def Byte : TypeTag := ⟨2⟩
/-- Modelled from the spec: enumerator `Type::UnsignedShort`. -/
def UnsignedShort : TypeTag := ⟨3⟩
/-- Modelled from the spec: enumerator `Type::Short`. -/
def Short : TypeTag := ⟨4⟩
/-- Modelled from the spec: enumerator `Type::UnsignedInt`. -/
def UnsignedInt : TypeTag := ⟨5⟩
/-- Modelled from the spec: enumerator `Type::Int`. -/
def Int : TypeTag := ⟨6⟩
/-- Modelled from the spec: enumerator `Type::UnsignedLong`. -/
def UnsignedLong : TypeTag := ⟨7⟩
/-- Modelled from the spec: enumerator `Type::Long`. -/
def Long : TypeTag := ⟨8⟩
/-- Modelled from the spec: enumerator `Type::Float`. -/
def Float : TypeTag := ⟨9⟩
/-- Modelled from the spec: enumerator `Type::Double`. -/
def Double : TypeTag := ⟨10⟩
/-- Modelled from the spec: enumerator `Type::String`. -/
def String : TypeTag := ⟨11⟩
/-- Modelled from the spec: enumerator `Type::Reference`. -/
def Reference : TypeTag := ⟨12⟩
/-- Modelled from the spec: enumerator `Type::Type` (the name `Type` is reserved in Lean). -/
def Type_ : TypeTag := ⟨13⟩
/-- Modelled from the spec: enumerator `Type::Custom`, the sentinel after the primitive
types. -/
def Custom : TypeTag := ⟨14⟩

/-- The fourteen primitive enumerators, in declaration order. -/
def primitives : List TypeTag :=
  [Bool, UnsignedByte, Byte, UnsignedShort, Short, UnsignedInt, Int, UnsignedLong, Long,
   Float, Double, String, Reference, Type_]

/-- The `std::min(a, b)` of the standard library on type tags: `(b < a) ? b : a`, where
`<` on an `enum class` compares the underlying values. -/
def stdMin (a b : TypeTag) : TypeTag := if b.val < a.val then b else a

end TypeTag

/-! ## Document storage -/

/-- The types `T` for which `Implementation::isStructureType<T>` is specialised in
`Structure.h`: `bool`, `std::string` and the ten numeric types generated by `_c`. -/
inductive AccessorType where
  | bool
  | string
  | UnsignedByte
  | Byte
  | UnsignedShort
  | Short
  | UnsignedInt
  | Int
  | UnsignedLong
  | Long
  | Float
  | Double
deriving DecidableEq, Repr

namespace AccessorType

/-- All twelve accessor types. -/
def all : List AccessorType :=
  [bool, string, UnsignedByte, Byte, UnsignedShort, Short, UnsignedInt, Int, UnsignedLong,
   Long, Float, Double]

end AccessorType

/-- Modelled from the spec: the `primitive` view of `Document::StructureData` (declared in
`Document.h`, not among the sources), with the members `Structure.h` and the spec name: the
type tag, the sub-array size, and the begin offset and size of the structure's range in the
data arena of its type. -/
structure PrimitiveData where
  type : TypeTag
  subArraySize : Nat
  begin : Nat
  size : Nat
deriving DecidableEq, Repr

/-- Modelled from the spec: `Document::StructureData` (declared in `Document.h`, not among
the sources), restricted to the members read in `Structure.h`: the index of the name in the
string pool, the primitive view and the index of the next sibling (0 when there is none). -/
structure StructureData where
  name : Nat
  primitive : PrimitiveData
  next : Nat
deriving DecidableEq, Repr

/-- Modelled from the spec: `OpenDdl::Document` (declared in `Document.h`, not among the
sources), restricted to what `Structure.h` reads: the structure array `_structures`, the
string pool `_strings`, and `data<T>()`, one arena per accessor type. `Storage T` is the
type of the values held in the arena of `T`; it is left open, so that nothing is assumed
about machine integers or floating point. -/
structure Document (Storage : AccessorType → Type) where
  _structures : List StructureData
  _strings : List String
  data : (T : AccessorType) → List (Storage T)

/-- The handle `OpenDdl::Structure`: a reference to the document and a reference to one
record of its structure array (`_document`, `_data`). -/
structure Structure (Storage : AccessorType → Type) where
  _document : Document Storage
  _data : Fin _document._structures.length

/-- What a call does: it returns, it stops at a failed `CORRADE_ASSERT` with the printed
message, or it indexes an arena outside its bounds (undefined in the source). -/
inductive Outcome (α : Type) where
  | value (a : α)
  | assertion (message : String)
  | undefined

namespace Structure

variable {Storage : AccessorType → Type}

/-- The record behind the handle, `_data.get()`. -/
def record (s : Structure Storage) : StructureData :=
  s._document._structures.get s._data

/-- `Structure::type()`:
`return std::min(Type::Custom, _data.get().primitive.type);` -/
def type (s : Structure Storage) : TypeTag :=
  TypeTag.stdMin TypeTag.Custom s.record.primitive.type

/-- `Structure::isCustom()`: `return type() == Type::Custom;` -/
def isCustom (s : Structure Storage) : Bool :=
  s.type == TypeTag.Custom

end Structure

namespace Implementation

/-- `Implementation::isStructureType<T>(Type)`: the specialisations for `bool`, for
`std::string`, and the ones the macro `_c(T)` generates,
`isStructureType<T>(Type type) { return type == Type::T; }`. -/
def isStructureType : AccessorType → TypeTag → Bool
  | .bool, type => type == TypeTag.Bool
  | .string, type => type == TypeTag.String || type == TypeTag.Reference
  | .UnsignedByte, type => type == TypeTag.UnsignedByte
  | .Byte, type => type == TypeTag.Byte
  | .UnsignedShort, type => type == TypeTag.UnsignedShort
  | .Short, type => type == TypeTag.Short
  | .UnsignedInt, type => type == TypeTag.UnsignedInt
  | .Int, type => type == TypeTag.Int
  | .UnsignedLong, type => type == TypeTag.UnsignedLong
  | .Long, type => type == TypeTag.Long
  | .Float, type => type == TypeTag.Float
  | .Double, type => type == TypeTag.Double

end Implementation

/-- The view `Containers::ArrayReference<const T>` returned by `asArray()`: a pointer into
an arena, kept as the arena and the offset of the first element, and the number of
elements. Building the view reads nothing. -/
structure ArrayReference (α : Type) where
  arena : List α
  offset : Nat
  size : Nat

namespace ArrayReference

/-- Element `i` of the view: `data[i]`, which is element `offset + i` of the arena;
nothing for an index outside the view or outside the arena. -/
def get? {α : Type} (view : ArrayReference α) (i : Nat) : Option α :=
  if i < view.size then view.arena.get? (view.offset + i) else none

/-- The elements of the view, as far as they exist in the arena. -/
def toList {α : Type} (view : ArrayReference α) : List α :=
  (view.arena.drop view.offset).take view.size

end ArrayReference

/-- Result of following `findNext()` repeatedly: the chain ended with "no value" after the
listed structures, or the steps allowed were used up, or a step was undefined. -/
inductive Traversal (α : Type) where
  | ended (visited : List α)
  | outOfFuel
  | undefined

namespace Traversal

/-- Put a structure in front of the structures visited after it. -/
def cons {α : Type} (a : α) : Traversal α → Traversal α
  | ended visited => ended (a :: visited)
  | outOfFuel => outOfFuel
  | undefined => undefined

end Traversal

namespace Structure

variable {Storage : AccessorType → Type}

/-- Modelled from the spec: `Structure::arraySize()` is only declared in `Structure.h`
("Array size. The structure must not be custom."); its body is not among the sources. By
the spec a primitive structure stores "a begin-offset + size + subArraySize into the
arena of its type", and calling `arraySize()` on a custom structure is a contract
violation. The text of the message is not known. -/
def arraySize (s : Structure Storage) : Outcome Nat :=
  if s.isCustom then .assertion "OpenDdl::Structure::arraySize(): the structure is custom"
  else .value s.record.primitive.size

/-- `Structure::as<T>()`:
```
CORRADE_ASSERT(arraySize() == 1, "OpenDdl::Structure::as(): not a single value", ...);
CORRADE_ASSERT(Implementation::isStructureType<T>(type()),
    "OpenDdl::Structure::as(): not of given type", ...);
return _document.get().data<T>()[_data.get().primitive.begin];
```
-/
def as (T : AccessorType) (s : Structure Storage) : Outcome (Storage T) :=
  match s.arraySize with
  | .assertion message => .assertion message
  | .undefined => .undefined
  | .value n =>
    if n = 1 then
      if Implementation.isStructureType T s.type then
        match (s._document.data T).get? s.record.primitive.begin with
        | some v => .value v
        | none => .undefined
      else .assertion "OpenDdl::Structure::as(): not of given type"
    else .assertion "OpenDdl::Structure::as(): not a single value"

/-- `Structure::asArray<T>()`:
```
CORRADE_ASSERT(Implementation::isStructureType<T>(type()),
    "OpenDdl::Structure::asArray(): not of given type", nullptr);
return {&_document.get().data<T>()[0] + _data.get().primitive.begin,
        _data.get().primitive.size};
```
-/
def asArray (T : AccessorType) (s : Structure Storage) :
    Outcome (ArrayReference (Storage T)) :=
  if Implementation.isStructureType T s.type then
    .value ⟨s._document.data T, s.record.primitive.begin, s.record.primitive.size⟩
  else .assertion "OpenDdl::Structure::asArray(): not of given type"

/-- `Structure::findNext()`:
```
return _data.get().next
    ? std::make_optional(Structure{_document, _document.get()._structures[_data.get().next]})
    : std::nullopt;
```
Indexing `_structures` beyond its size is undefined. -/
def findNext (s : Structure Storage) : Outcome (Option (Structure Storage)) :=
  if s.record.next = 0 then .value none
  else if h : s.record.next < s._document._structures.length then
    .value (some ⟨s._document, ⟨s.record.next, h⟩⟩)
  else .undefined

/-- Iterating `findNext()` from a structure, as in
`for(auto s = start; s; s = s->findNext())`, for at most `fuel` structures. -/
def walk : Nat → Structure Storage → Traversal (Structure Storage)
  | 0, _ => .outOfFuel
  | fuel + 1, s =>
    match s.findNext with
    | .value none => .ended [s]
    | .value (some t) => Traversal.cons s (walk fuel t)
    | .assertion _ => .undefined -- not reached: `findNext()` has no assertion
    | .undefined => .undefined

/-- Index of the record a handle refers to. -/
def index (s : Structure Storage) : Nat := s._data.val

/-- The two assertion conditions of `as<T>()`: the array size is 1 and the type check
accepts the clamped tag. -/
def asConditions (T : AccessorType) (s : Structure Storage) : Prop :=
  s.arraySize = .value 1 ∧ Implementation.isStructureType T s.type = true

end Structure

end OpenDdl

/-! ## Validation tables -/

namespace OpenDdl

namespace Validation

/-- Modelled from the spec: `Validation::PropertyType` is declared in `Validation.h`, which
is not among the sources; these are the enumerators `openGexSpec.hpp` uses. -/
inductive PropertyType where
  | Bool
  | UnsignedInt
  | UnsignedLong
  | Float
  | String
  | Reference
deriving DecidableEq, Repr

/-- Modelled from the spec: the constant `RequiredProperty` of `Validation.h` (a property is
"required/optional"). -/
def RequiredProperty : Bool := true

/-- Modelled from the spec: the constant `OptionalProperty` of `Validation.h`. -/
def OptionalProperty : Bool := false

/-- Modelled from the spec: one element of `Validation::Properties`, "identifier, required
primitive type, required/optional". -/
structure Property where
  identifier : Int
  type : PropertyType
  required : Bool
deriving DecidableEq, Repr

/-- Modelled from the spec: `Validation::Structures`, the allowed structures with their
occurrence counts: "identifier, [min,max] occurrence count, 0 meaning unbounded". -/
abbrev Structures : Type := List (Int × (Int × Int))

/-- Modelled from the spec: `Validation::Structure` (declared in `Validation.h`, not among
the sources), one entry of the schema: the identifier, the allowed properties, the allowed
primitive types followed by the two numbers the table gives with them, and the allowed
child structures. -/
structure Structure where
  identifier : Int
  properties : List Property
  primitives : List TypeTag
  primitiveCount : Nat
  primitiveArraySize : Nat
  structures : Structures
deriving DecidableEq, Repr

/-- Modelled from the spec: the cardinality rule of the validation engine, whose code is not
among the sources: a count "falls within its [min,max] (max 0 = unbounded)". -/
def countWithin (count : Int) (range : Int × Int) : Bool :=
  decide (range.1 ≤ count) && (range.2 == 0 || decide (count ≤ range.2))

/-- Modelled from the spec: "Tally children by identifier": the number of children of a
structure, given by their identifiers in textual order, that have the identifier. -/
def tally (children : List Int) (identifier : Int) : Int :=
  (children.count identifier : Nat)

/-- Modelled from the spec: "after visiting all children of a structure, check each
declared child identifier's count falls within its [min,max]": the declared child
identifiers whose count is outside their range, in table order. -/
def cardinalityViolations (allowed : Structures) (children : List Int) : List Int :=
  (allowed.filter (fun entry => !countWithin (tally children entry.1) entry.2)).map
    (fun entry => entry.1)

/-- Modelled from the spec: the entry of a schema table that describes an identifier, the
first one carrying it. -/
def findInfo (info : List Structure) (identifier : Int) : Option Structure :=
  info.find? (fun entry => entry.identifier == identifier)

/-- Modelled from the spec: the allowed-root check of the validation engine, whose code is
not among the sources: "Check every root structure's identifier is in the schema's
allowed-root set". -/
def allowedAtRoot (roots : Structures) (identifier : Int) : Bool :=
  roots.any (fun root => root.1 == identifier)

end Validation

end OpenDdl

/-! ## The OpenGEX tables of `openGexSpec.hpp` -/

namespace OpenGex

open OpenDdl OpenDdl.Validation

/-! Structure identifiers: the enumerators of the first anonymous `enum: Int`, numbered from 0. -/
def Animation : Int := 0
def Atten : Int := 1
def BoneCountArray : Int := 2
def BoneIndexArray : Int := 3
def BoneNode : Int := 4
def BoneRefArray : Int := 5
def BoneWeightArray : Int := 6
def CameraNode : Int := 7
def CameraObject : Int := 8
def Clip : Int := 9
def Color : Int := 10
def Extension : Int := 11
def GeometryNode : Int := 12
def GeometryObject : Int := 13
def IndexArray : Int := 14
def Key : Int := 15
def LightNode : Int := 16
def LightObject : Int := 17
def Material : Int := 18
def MaterialRef : Int := 19
def Mesh : Int := 20
def Metric : Int := 21
def Morph : Int := 22
def MorphWeight : Int := 23
def Name : Int := 24
def Node : Int := 25
def ObjectRef : Int := 26
def Param : Int := 27
def Rotation : Int := 28
def Scale : Int := 29
def Skeleton : Int := 30
def Skin : Int := 31
def Texture : Int := 32
def Time : Int := 33
def Track : Int := 34
def Transform : Int := 35
def Translation : Int := 36
def Value : Int := 37
def VertexArray : Int := 38

/-! Property identifiers: the enumerators of the second anonymous `enum: Int`, numbered from 0
(`end` is reserved in Lean and is written `end_`). -/
def applic : Int := 0
def attrib : Int := 1
def begin : Int := 2
def clip : Int := 3
def curve : Int := 4
def end_ : Int := 5
def front : Int := 6
def index : Int := 7
def key : Int := 8
def kind : Int := 9
def lod : Int := 10
def material : Int := 11
def morph : Int := 12
def motion_blur : Int := 13
def object : Int := 14
def primitive : Int := 15
def restart : Int := 16
def shadow : Int := 17
def target : Int := 18
def texcoord : Int := 19
def two_sided : Int := 20
def type : Int := 21
def visible : Int := 22

/-- The list `structures`: the spellings `_c(val)` = `#val` of the structure identifiers. -/
def structures : List String :=
  ["Animation",
   "Atten",
   "BoneCountArray",
   "BoneIndexArray",
   "BoneNode",
   "BoneRefArray",
   "BoneWeightArray",
   "CameraNode",
   "CameraObject",
   "Clip",
   "Color",
   "Extension",
   "GeometryNode",
   "GeometryObject",
   "IndexArray",
   "Key",
   "LightNode",
   "LightObject",
   "Material",
   "MaterialRef",
   "Mesh",
   "Metric",
   "Morph",
   "MorphWeight",
   "Name",
   "Node",
   "ObjectRef",
   "Param",
   "Rotation",
   "Scale",
   "Skeleton",
   "Skin",
   "Texture",
   "Time",
   "Track",
   "Transform",
   "Translation",
   "Value",
   "VertexArray"]

/-- The list `properties`: the spellings `_c(val)` = `#val` of the property identifiers. -/
def properties : List String :=
  ["applic",
   "attrib",
   "begin",
   "clip",
   "curve",
   "end",
   "front",
   "index",
   "key",
   "kind",
   "lod",
   "material",
   "morph",
   "motion_blur",
   "object",
   "primitive",
   "restart",
   "shadow",
   "target",
   "texcoord",
   "two_sided",
   "type",
   "visible"]

/-- The table `rootStructures`; an empty pair `{}` is value-initialised to `(0, 0)`. -/
def rootStructures : Validation.Structures :=
  [(BoneNode, (0, 0)),
   (CameraNode, (0, 0)),
   (CameraObject, (0, 0)),
   (Clip, (0, 0)),
   (Extension, (0, 0)),
   (GeometryNode, (0, 0)),
   (GeometryObject, (0, 0)),
   (LightNode, (0, 0)),
   (LightObject, (0, 0)),
   (Material, (0, 0)),
   (Metric, (0, 0)),
   (Node, (0, 0))]

/-- The table `structureInfo`, entry by entry in the order of the source: identifier,
properties, primitives with the two numbers that follow them, child structures. An entry
written without `Properties` or without `Primitives` has the empty list (and 0, 0) there. -/
def structureInfo : List Validation.Structure :=
  [⟨Animation,
     [⟨clip, PropertyType.UnsignedInt, OptionalProperty⟩,
      ⟨begin, PropertyType.Float, OptionalProperty⟩,
      ⟨end_, PropertyType.Float, OptionalProperty⟩],
     [], 0, 0,
     [(Track, (1, 0)),
      (Extension, (0, 0))]⟩,
   ⟨Atten,
     [⟨kind, PropertyType.String, OptionalProperty⟩,
      ⟨curve, PropertyType.String, OptionalProperty⟩],
     [], 0, 0,
     [(Param, (0, 0)),
      (Extension, (0, 0))]⟩,
   ⟨BoneCountArray,
     [],
     [TypeTag.UnsignedByte, TypeTag.UnsignedShort, TypeTag.UnsignedInt, TypeTag.UnsignedLong], 1, 0,
     [(Extension, (0, 0))]⟩,
   ⟨BoneIndexArray,
     [],
     [TypeTag.UnsignedByte, TypeTag.UnsignedShort, TypeTag.UnsignedInt, TypeTag.UnsignedLong], 1, 0,
     [(Extension, (0, 0))]⟩,
   ⟨BoneNode,
     [],
     [], 0, 0,
     [(Name, (0, 1)),
      (Transform, (0, 0)),
      (Translation, (0, 0)),
      (Rotation, (0, 0)),
      (Scale, (0, 0)),
      (Animation, (0, 0)),
      (Node, (0, 0)),
      (BoneNode, (0, 0)),
      (GeometryNode, (0, 0)),
      (CameraNode, (0, 0)),
      (LightNode, (0, 0)),
      (Extension, (0, 0))]⟩,
   ⟨BoneRefArray,
     [],
     [TypeTag.Reference], 1, 0,
     [(Extension, (0, 0))]⟩,
   ⟨BoneWeightArray,
     [],
     [TypeTag.Float], 1, 0,
     [(Extension, (0, 0))]⟩,
   ⟨CameraNode,
     [],
     [], 0, 0,
     [(Name, (0, 1)),
      (ObjectRef, (1, 1)),
      (Transform, (0, 0)),
      (Translation, (0, 0)),
      (Rotation, (0, 0)),
      (Scale, (0, 0)),
      (Animation, (0, 0)),
      (Node, (0, 0)),
      (BoneNode, (0, 0)),
      (GeometryNode, (0, 0)),
      (CameraNode, (0, 0)),
      (LightNode, (0, 0)),
      (Extension, (0, 0))]⟩,
   ⟨CameraObject,
     [],
     [], 0, 0,
     [(Param, (0, 0)),
      (Extension, (0, 0))]⟩,
   ⟨Clip,
     [⟨index, PropertyType.UnsignedInt, OptionalProperty⟩],
     [], 0, 0,
     [(Name, (0, 1)),
      (Param, (0, 0)),
      (Extension, (0, 0))]⟩,
   ⟨Color,
     [⟨attrib, PropertyType.String, RequiredProperty⟩],
     [TypeTag.Float], 1, 0,
     [(Extension, (0, 0))]⟩,
   ⟨Extension,
     [⟨applic, PropertyType.String, OptionalProperty⟩,
      ⟨type, PropertyType.String, RequiredProperty⟩],
     [TypeTag.Bool, TypeTag.UnsignedByte, TypeTag.Byte, TypeTag.UnsignedShort, TypeTag.Short,
      TypeTag.UnsignedInt, TypeTag.Int, TypeTag.UnsignedLong, TypeTag.Long, TypeTag.Float,
      TypeTag.Double, TypeTag.String, TypeTag.Reference, TypeTag.Type_], 0, 0,
     [(Extension, (0, 0))]⟩,
   ⟨GeometryNode,
     [⟨visible, PropertyType.Bool, OptionalProperty⟩,
      ⟨shadow, PropertyType.Bool, OptionalProperty⟩,
      ⟨motion_blur, PropertyType.Bool, OptionalProperty⟩],
     [], 0, 0,
     [(Name, (0, 1)),
      (ObjectRef, (1, 1)),
      (MaterialRef, (0, 0)),
      (MorphWeight, (0, 0)),
      (Transform, (0, 0)),
      (Translation, (0, 0)),
      (Rotation, (0, 0)),
      (Scale, (0, 0)),
      (Animation, (0, 0)),
      (Node, (0, 0)),
      (BoneNode, (0, 0)),
      (GeometryNode, (0, 0)),
      (CameraNode, (0, 0)),
      (LightNode, (0, 0)),
      (Extension, (0, 0))]⟩,
   ⟨GeometryObject,
     [⟨visible, PropertyType.Bool, OptionalProperty⟩,
      ⟨shadow, PropertyType.Bool, OptionalProperty⟩,
      ⟨motion_blur, PropertyType.Bool, OptionalProperty⟩],
     [], 0, 0,
     [(Mesh, (1, 0)),
      (Morph, (0, 0)),
      (Extension, (0, 0))]⟩,
   ⟨IndexArray,
     [⟨material, PropertyType.UnsignedInt, OptionalProperty⟩,
      ⟨restart, PropertyType.UnsignedLong, OptionalProperty⟩,
      ⟨front, PropertyType.String, OptionalProperty⟩],
     [TypeTag.UnsignedByte, TypeTag.UnsignedShort, TypeTag.UnsignedInt, TypeTag.UnsignedLong], 1, 0,
     [(Extension, (0, 0))]⟩,
   ⟨Key,
     [⟨kind, PropertyType.String, OptionalProperty⟩],
     [TypeTag.Float], 1, 0,
     [(Extension, (0, 0))]⟩,
   ⟨LightNode,
     [⟨shadow, PropertyType.Bool, OptionalProperty⟩],
     [], 0, 0,
     [(Name, (0, 1)),
      (ObjectRef, (1, 1)),
      (Transform, (0, 0)),
      (Translation, (0, 0)),
      (Rotation, (0, 0)),
      (Scale, (0, 0)),
      (Animation, (0, 0)),
      (Node, (0, 0)),
      (BoneNode, (0, 0)),
      (GeometryNode, (0, 0)),
      (CameraNode, (0, 0)),
      (LightNode, (0, 0)),
      (Extension, (0, 0))]⟩,
   ⟨LightObject,
     [⟨type, PropertyType.String, RequiredProperty⟩,
      ⟨shadow, PropertyType.Bool, OptionalProperty⟩],
     [], 0, 0,
     [(Color, (0, 1)),
      (Param, (0, 1)),
      (Texture, (0, 1)),
      (Atten, (0, 0)),
      (Extension, (0, 0))]⟩,
   ⟨Material,
     [⟨two_sided, PropertyType.Bool, OptionalProperty⟩],
     [], 0, 0,
     [(Name, (0, 1)),
      (Color, (0, 0)),
      (Param, (0, 0)),
      (Texture, (0, 0)),
      (Extension, (0, 0))]⟩,
   ⟨MaterialRef,
     [⟨index, PropertyType.UnsignedInt, OptionalProperty⟩],
     [TypeTag.Reference], 1, 1,
     [(Extension, (0, 0))]⟩,
   ⟨Mesh,
     [⟨lod, PropertyType.UnsignedInt, OptionalProperty⟩,
      ⟨primitive, PropertyType.String, OptionalProperty⟩],
     [], 0, 0,
     [(VertexArray, (1, 0)),
      (IndexArray, (0, 0)),
      (Skin, (0, 1)),
      (Extension, (0, 0))]⟩,
   ⟨Metric,
     [⟨key, PropertyType.String, RequiredProperty⟩],
     [TypeTag.Float, TypeTag.String], 1, 1,
     [(Extension, (0, 0))]⟩,
   ⟨Morph,
     [⟨index, PropertyType.UnsignedInt, OptionalProperty⟩],
     [], 0, 0,
     [(Name, (0, 1)),
      (Extension, (0, 0))]⟩,
   ⟨MorphWeight,
     [⟨index, PropertyType.UnsignedInt, OptionalProperty⟩],
     [TypeTag.Float], 1, 1,
     [(Extension, (0, 0))]⟩,
   ⟨Name,
     [],
     [TypeTag.String], 1, 1,
     [(Extension, (0, 0))]⟩,
   ⟨Node,
     [],
     [], 0, 0,
     [(Name, (0, 1)),
      (Transform, (0, 0)),
      (Translation, (0, 0)),
      (Rotation, (0, 0)),
      (Scale, (0, 0)),
      (Animation, (0, 0)),
      (Node, (0, 0)),
      (BoneNode, (0, 0)),
      (GeometryNode, (0, 0)),
      (CameraNode, (0, 0)),
      (LightNode, (0, 0)),
      (Extension, (0, 0))]⟩,
   ⟨ObjectRef,
     [],
     [TypeTag.Reference], 1, 1,
     [(Extension, (0, 0))]⟩,
   ⟨Param,
     [⟨attrib, PropertyType.String, RequiredProperty⟩],
     [TypeTag.Float], 1, 1,
     [(Extension, (0, 0))]⟩,
   ⟨Rotation,
     [⟨kind, PropertyType.String, OptionalProperty⟩,
      ⟨object, PropertyType.Bool, OptionalProperty⟩],
     [TypeTag.Float], 1, 0,
     [(Extension, (0, 0))]⟩,
   ⟨Scale,
     [⟨kind, PropertyType.String, OptionalProperty⟩,
      ⟨object, PropertyType.Bool, OptionalProperty⟩],
     [TypeTag.Float], 1, 0,
     [(Extension, (0, 0))]⟩,
   ⟨Skeleton,
     [],
     [], 0, 0,
     [(BoneRefArray, (1, 1)),
      (Transform, (1, 1)),
      (Extension, (0, 0))]⟩,
   ⟨Skin,
     [],
     [], 0, 0,
     [(Transform, (0, 1)),
      (Skeleton, (1, 1)),
      (BoneCountArray, (1, 1)),
      (BoneIndexArray, (1, 1)),
      (BoneWeightArray, (1, 1)),
      (Extension, (0, 0))]⟩,
   ⟨Texture,
     [⟨attrib, PropertyType.String, RequiredProperty⟩,
      ⟨texcoord, PropertyType.UnsignedInt, OptionalProperty⟩],
     [TypeTag.String], 1, 1,
     [(Transform, (0, 0)),
      (Translation, (0, 0)),
      (Rotation, (0, 0)),
      (Scale, (0, 0)),
      (Animation, (0, 0)),
      (Extension, (0, 0))]⟩,
   ⟨Time,
     [⟨curve, PropertyType.String, OptionalProperty⟩],
     [], 0, 0,
     [(Key, (1, 3)),
      (Extension, (0, 0))]⟩,
   ⟨Track,
     [⟨target, PropertyType.Reference, RequiredProperty⟩],
     [], 0, 0,
     [(Time, (1, 1)),
      (Value, (1, 1)),
      (Extension, (0, 0))]⟩,
   ⟨Transform,
     [⟨object, PropertyType.Bool, OptionalProperty⟩],
     [TypeTag.Float], 1, 0,
     [(Extension, (0, 0))]⟩,
   ⟨Translation,
     [⟨kind, PropertyType.String, OptionalProperty⟩,
      ⟨object, PropertyType.Bool, OptionalProperty⟩],
     [TypeTag.Float], 1, 0,
     [(Extension, (0, 0))]⟩,
   ⟨Value,
     [⟨curve, PropertyType.String, OptionalProperty⟩],
     [], 0, 0,
     [(Key, (1, 4)),
      (Extension, (0, 0))]⟩,
   ⟨VertexArray,
     [⟨attrib, PropertyType.String, RequiredProperty⟩,
      ⟨morph, PropertyType.UnsignedInt, OptionalProperty⟩],
     [TypeTag.Float, TypeTag.Double], 1, 0,
     [(Extension, (0, 0))]⟩]

/-- The first anonymous `enum: Int`, enumerator by enumerator in declaration order: the
spelling of the enumerator in the source and the constant it declares. -/
def structureEnumerators : List (String × Int) :=
  [("Animation", Animation), ("Atten", Atten), ("BoneCountArray", BoneCountArray),
   ("BoneIndexArray", BoneIndexArray), ("BoneNode", BoneNode), ("BoneRefArray", BoneRefArray),
   ("BoneWeightArray", BoneWeightArray), ("CameraNode", CameraNode),
   ("CameraObject", CameraObject), ("Clip", Clip), ("Color", Color), ("Extension", Extension),
   ("GeometryNode", GeometryNode), ("GeometryObject", GeometryObject),
   ("IndexArray", IndexArray), ("Key", Key), ("LightNode", LightNode),
   ("LightObject", LightObject), ("Material", Material), ("MaterialRef", MaterialRef),
   ("Mesh", Mesh), ("Metric", Metric), ("Morph", Morph), ("MorphWeight", MorphWeight),
   ("Name", Name), ("Node", Node), ("ObjectRef", ObjectRef), ("Param", Param),
   ("Rotation", Rotation), ("Scale", Scale), ("Skeleton", Skeleton), ("Skin", Skin),
   ("Texture", Texture), ("Time", Time), ("Track", Track), ("Transform", Transform),
   ("Translation", Translation), ("Value", Value), ("VertexArray", VertexArray)]

/-- The second anonymous `enum: Int`, enumerator by enumerator in declaration order: the
spelling of the enumerator in the source and the constant it declares (`end` is written
`end_` as a constant). -/
def propertyEnumerators : List (String × Int) :=
  [("applic", applic), ("attrib", attrib), ("begin", begin), ("clip", clip), ("curve", curve),
   ("end", end_), ("front", front), ("index", index), ("key", key), ("kind", kind),
   ("lod", lod), ("material", material), ("morph", morph), ("motion_blur", motion_blur),
   ("object", object), ("primitive", primitive), ("restart", restart), ("shadow", shadow),
   ("target", target), ("texcoord", texcoord), ("two_sided", two_sided), ("type", type),
   ("visible", visible)]

/-- The bytes of a name. The names of the tables are ASCII, so the code points of the
characters are the bytes of the C string. -/
def bytes (name : String) : List Nat := name.toList.map Char.toNat

/-- Byte order on C strings, as `strcmp` gives it: the first differing byte decides, and a
proper prefix comes first. -/
def byteLess : List Nat → List Nat → Bool
  | [], [] => false
  | [], _ :: _ => true
  | _ :: _, [] => false
  | a :: as, b :: bs => decide (a < b) || (a == b && byteLess as bs)

/-- The identifiers of the child structures an identifier may have: the child lists of the
entries of a schema table that carry the identifier. -/
def childIdentifiers (info : List Validation.Structure) (identifier : Int) : List Int :=
  ((info.filter (fun entry => entry.identifier == identifier)).map
    (fun entry => entry.structures.map (fun child => child.1))).flatten

/-- One round of following child lists: the identifiers seen so far, then the children of
each of them that were not seen yet. -/
def expand (info : List Validation.Structure) (seen : List Int) : List Int :=
  (seen ++ (seen.map (childIdentifiers info)).flatten).dedup

/-- The identifiers reached from the roots of a schema by following child lists for the
given number of rounds. -/
def reached (info : List Validation.Structure) (roots : Validation.Structures) :
    Nat → List Int
  | 0 => (roots.map (fun root => root.1)).dedup
  | rounds + 1 => expand info (reached info roots rounds)

/-- An identifier is reachable in a schema when it is an allowed root, or a declared child
of an entry whose identifier is reachable. -/
inductive Reachable (info : List Validation.Structure) (roots : Validation.Structures) :
    Int → Prop where
  | root (identifier : Int) (range : Int × Int) (h : (identifier, range) ∈ roots) :
      Reachable info roots identifier
  | child (parent : Validation.Structure) (identifier : Int) (range : Int × Int)
      (hparent : Reachable info roots parent.identifier) (hentry : parent ∈ info)
      (hchild : (identifier, range) ∈ parent.structures) :
      Reachable info roots identifier

end OpenGex

/-! ## The COLLADA importer, `ColladaImporter.cpp`

The XQuery engine and the Qt strings are outside the repository: what a query evaluates
to is a parameter of the embedding. Positions in a vector and sizes of containers are
natural numbers (the source keeps them in `std::size_t`, `unsigned int` and `GLuint`, and
a position is below the size of its vector); the vertex total, a sum of `GLuint` values in
a `GLuint`, is reduced modulo 2^32. A read outside a vector and a division by zero are
undefined in the source. -/

namespace ColladaImporter

open OpenDdl (Outcome)

/-- The number of values of a `GLuint`, 2^32. -/
def GLuintRange : Nat := 4294967296

/-- A `std::unordered_map<Key, unsigned int, Hash, KeyEqual>`, kept as the list of its
elements in the order of their insertion; the hash is assumed consistent with the
key-equality predicate, which alone decides what the map contains. -/
abbrev UnorderedMap (κ : Type) : Type := List (κ × Nat)

namespace UnorderedMap

/-- The call `find(key)`: the element whose key is equivalent to the key, if there is one. -/
def find {κ : Type} (keyEqual : κ → κ → Bool) (map : UnorderedMap κ) (key : κ) :
    Option (κ × Nat) :=
  List.find? (fun element => keyEqual element.1 key) map

/-- The call `insert(value)`: the element is inserted if the map has no element with an
equivalent key. The result is the map and the element that `.first` of the returned pair
designates: the element that prevented the insertion, or the inserted one. -/
def insert {κ : Type} (keyEqual : κ → κ → Bool) (map : UnorderedMap κ) (value : κ × Nat) :
    UnorderedMap κ × (κ × Nat) :=
  match find keyEqual map value.1 with
  | some element => (map, element)
  | none => (map ++ [value], value)

end UnorderedMap

/-- The loops of `open()` that build the name to id maps:
```
for(const QString id: tmpList)
    camerasForName.insert(make_pair(id.trimmed().toStdString(), camerasForName.size()));
```
and the same for lights, materials, meshes and images. `trimmed` stands for
`QString::trimmed()`; `std::string` keys are compared with `==`. -/
def namesToIds (trimmed : String → String) (tmpList : List String) : UnorderedMap String :=
  tmpList.foldl
    (fun map id => (UnorderedMap.insert (fun a b => a == b) map (trimmed id, map.length)).1) []

/-- The lookups `meshForName`, `materialForName`, `image2DForName`:
```
auto it = d->meshesForName.find(name);
return (it == d->meshesForName.end()) ? -1 : it->second;
```
-/
def meshForName (meshesForName : UnorderedMap String) (name : String) : Int :=
  match UnorderedMap.find (fun a b => a == b) meshesForName name with
  | none => -1
  | some element => (element.2 : Int)

/-- The position that `mesh(id)`, `material(id)` and `image2D(id)` put into their queries,
`geometry[%0]` with `.arg(id+1)`. -/
def queryPosition (id : Nat) : Nat := id + 1

/-- The node that an XPath step `node[position]` selects from the nodes in document order:
positions count from 1. -/
def nodeAt {α : Type} (nodes : List α) (position : Nat) : Option α :=
  if position = 0 then none else nodes.get? (position - 1)

/-- The first loop of `mesh()`, over the faces from face `i` on:
```
GLuint count = vertexCountPerFace[i];
if(count == 4) quads.push_back(i);
else if(count != 3) {
    Error() << "ColladaImporter:" << count << "vertices per face not supported";
    return nullptr;
}
vertexCount += count;
```
The result is the error with the count that is reported, or the vertex total and the list
of quads. -/
def countVertices : List Nat → Nat → Nat → List Nat → Except Nat (Nat × List Nat)
  | [], _, vertexCount, quads => .ok (vertexCount, quads)
  | count :: rest, i, vertexCount, quads =>
    if count = 4 then
      countVertices rest (i + 1) ((vertexCount + count) % GLuintRange) (quads ++ [i])
    else if count ≠ 3 then .error count
    else countVertices rest (i + 1) ((vertexCount + count) % GLuintRange) quads

/-- The tuple of `stride` indices at a position of the original index array. -/
def tupleAt (originalIndices : List Nat) (stride position : Nat) : List Nat :=
  (originalIndices.drop (position * stride)).take stride

/-- The loop that numbers the unique index combinations, for the positions below `positions`
(`originalIndices.size()/stride` in the source):
```
for(size_t i = 0, end = originalIndices.size()/stride; i != end; ++i)
    combinedIndices.push_back(indexCombinations.insert(
        make_pair(i, indexCombinations.size())).first->second);
```
`keyEqual` stands for `IndexEqual(originalIndices, stride)`, which is declared in the header
of the importer. The result is `indexCombinations` and `combinedIndices`. -/
def combineIndices (keyEqual : Nat → Nat → Bool) (positions : Nat) :
    UnorderedMap Nat × List Nat :=
  (List.range positions).foldl
    (fun state i =>
      let inserted := UnorderedMap.insert keyEqual state.1 (i, state.1.length)
      (inserted.1, state.2 ++ [inserted.2.2]))
    ([], [])

/-- The loop "Convert quads to triangles", for `faces` more faces from face `i` on:
```
if(quads.size() > quadId && quads[quadId] == i) {
    indices->push_back(combinedIndices[i*3+quadId]);
    indices->push_back(combinedIndices[i*3+quadId+1]);
    indices->push_back(combinedIndices[i*3+quadId+2]);
    indices->push_back(combinedIndices[i*3+quadId]);
    indices->push_back(combinedIndices[i*3+quadId+2]);
    indices->push_back(combinedIndices[i*3+quadId+3]);
    ++quadId;
} else {
    indices->push_back(combinedIndices[i*3+quadId]);
    indices->push_back(combinedIndices[i*3+quadId+1]);
    indices->push_back(combinedIndices[i*3+quadId+2]);
}
```
The result is nothing when a read falls outside `combinedIndices`. -/
def triangulate (combinedIndices quads : List Nat) :
    Nat → Nat → Nat → List Nat → Option (List Nat)
  | 0, _, _, indices => some indices
  | faces + 1, i, quadId, indices =>
    if quads.length > quadId ∧ quads.get? quadId = some i then
      match combinedIndices.get? (i * 3 + quadId), combinedIndices.get? (i * 3 + quadId + 1),
        combinedIndices.get? (i * 3 + quadId + 2), combinedIndices.get? (i * 3 + quadId + 3) with
      | some a, some b, some c, some d =>
        triangulate combinedIndices quads faces (i + 1) (quadId + 1)
          (indices ++ [a, b, c, a, c, d])
      | _, _, _, _ => none
    else
      match combinedIndices.get? (i * 3 + quadId), combinedIndices.get? (i * 3 + quadId + 1),
        combinedIndices.get? (i * 3 + quadId + 2) with
      | some a, some b, some c =>
        triangulate combinedIndices quads faces (i + 1) quadId (indices ++ [a, b, c])
      | _, _, _ => none

/-- The position that an element of `indexCombinations` contributes,
`originalVertices[originalIndices[i.first*stride+vertexOffset]]`; nothing when a read falls
outside a vector. -/
def originalVertex {Vector3 : Type} (originalIndices : List Nat)
    (originalVertices : List Vector3) (stride vertexOffset first : Nat) : Option Vector3 :=
  match originalIndices.get? (first * stride + vertexOffset) with
  | some index => originalVertices.get? index
  | none => none

/-- The loop "Build vertex array" over the elements of `indexCombinations` in the order the
map iterates them:
```
for(auto i: indexCombinations)
    (*vertices)[i.second] = originalVertices[originalIndices[i.first*stride+vertexOffset]];
```
`toVector4` is the conversion of the assignment from `Vector3` to `Vector4`. The result is
nothing when a read or the write falls outside a vector. -/
def assignVertices {Vector3 Vector4 : Type} (toVector4 : Vector3 → Vector4)
    (originalIndices : List Nat) (originalVertices : List Vector3)
    (stride vertexOffset : Nat) :
    List (Nat × Nat) → List Vector4 → Option (List Vector4)
  | [], vertices => some vertices
  | i :: rest, vertices =>
    match originalVertex originalIndices originalVertices stride vertexOffset i.1 with
    | some position =>
      if i.2 < vertices.length then
        assignVertices toVector4 originalIndices originalVertices stride vertexOffset rest
          (vertices.set i.2 (toVector4 position))
      else none
    | none => none

/-- The vertex array of `mesh()`: `new vector<Vector4>(indexCombinations.size())`, whose
elements start as the value-initialised vector `zero`, filled by the loop "Build vertex
array" that visits the elements of the map in the order `iteration`. -/
def buildVertices {Vector3 Vector4 : Type} (zero : Vector4) (toVector4 : Vector3 → Vector4)
    (originalIndices : List Nat) (originalVertices : List Vector3)
    (stride vertexOffset : Nat) (indexCombinations iteration : UnorderedMap Nat) :
    Option (List Vector4) :=
  assignVertices toVector4 originalIndices originalVertices stride vertexOffset iteration
    (List.replicate indexCombinations.length zero)

/-- What the queries of `mesh(id)` evaluate to for `geometry[id+1]`: the trimmed name, the
vertex counts `parseArray<GLuint>(tmp, polygonCount)`, the stride `count(.../input)`, the
indices `parseArray<GLuint>(tmp, vertexCount*stride)` as a function of the count passed,
the positions `parseSource<Vector3>(...)` and `attributeOffset(id, "VERTEX")`. -/
structure MeshQueries (Vector3 : Type) where
  name : String
  vertexCountPerFace : List Nat
  stride : Nat
  originalIndices : Nat → List Nat
  originalVertices : List Vector3
  vertexOffset : Nat

/-- The part of `MeshData` that `mesh()` builds itself: the name, the index array and the
array of positions. The normals and texture coordinates come from `buildAttributeArray`,
which is declared in the header of the importer, and are left out. -/
structure MeshData (Vector4 : Type) where
  name : String
  indices : List Nat
  vertices : List Vector4

/-- The member of `ColladaImporter::Document` that `mesh()` uses: the cache `meshes`, one
slot per mesh, empty until the mesh is imported. -/
structure Document (Vector4 : Type) where
  meshes : List (Option (MeshData Vector4))

/-- `ColladaImporter::mesh(unsigned int id)`, up to the attributes other than the position.
`d` is the open document, if any; the result is the returned pointer (nothing for
`nullptr`) and the document after the call. `IndexEqual` stands for the functor of that
name, and the map is iterated in insertion order. -/
def mesh {Vector3 Vector4 : Type} (zero : Vector4) (toVector4 : Vector3 → Vector4)
    (IndexEqual : List Nat → Nat → Nat → Nat → Bool)
    (queries : Nat → MeshQueries Vector3) (d : Option (Document Vector4)) (id : Nat) :
    Outcome (Option (MeshData Vector4) × Option (Document Vector4)) :=
  match d with
  | none => .value (none, d)
  | some document =>
    if id ≥ document.meshes.length then .value (none, d)
    else
      match document.meshes.get? id with
      | some (some cached) => .value (some cached, d)
      | _ =>
        let q := queries id
        match countVertices q.vertexCountPerFace 0 0 [] with
        | .error _ => .value (none, d)
        | .ok (vertexCount, quads) =>
          let originalIndices := q.originalIndices ((vertexCount * q.stride) % GLuintRange)
          if q.stride = 0 then .undefined
          else
            let combined :=
              combineIndices (IndexEqual originalIndices q.stride)
                (originalIndices.length / q.stride)
            match triangulate combined.2 quads q.vertexCountPerFace.length 0 0 [] with
            | none => .undefined
            | some indices =>
              match buildVertices zero toVector4 originalIndices q.originalVertices
                  q.stride q.vertexOffset combined.1 combined.1 with
              | none => .undefined
              | some vertices =>
                let data : MeshData Vector4 := ⟨q.name, indices, vertices⟩
                .value (some data, some ⟨document.meshes.set id (some data)⟩)

/-- The index list that the conversion of quads to triangles is to produce, for the faces
whose counts are listed, when `start` is the sum of the counts of the faces before them:
`[v[s], v[s+1], v[s+2]]` for a triangle and `[v[s], v[s+1], v[s+2], v[s], v[s+2], v[s+3]]`
for a face of count 4, one face after the other. -/
def expectedIndices (v : List Nat) : List Nat → Nat → List Nat
  | [], _ => []
  | count :: rest, start =>
    (if count = 4 then
      [v.getD start 0, v.getD (start + 1) 0, v.getD (start + 2) 0,
       v.getD start 0, v.getD (start + 2) 0, v.getD (start + 3) 0]
    else [v.getD start 0, v.getD (start + 1) 0, v.getD (start + 2) 0]) ++
      expectedIndices v rest (start + count)

/-- The positions of the faces of count 4, the first listed face being face `i`. -/
def quadPositions : List Nat → Nat → List Nat
  | [], _ => []
  | count :: rest, i =>
    if count = 4 then i :: quadPositions rest (i + 1) else quadPositions rest (i + 1)

/-- The number a value gets when the values of a list are numbered in the order of their
first occurrence: the number of distinct values before its first occurrence. -/
def firstOccurrenceNumber {γ : Type} [DecidableEq γ] (values : List γ) (value : γ) : Nat :=
  ((values.take (values.indexOf value)).dedup).length

/-- One round of the numbering loops: the key is inserted with the size of the map as its
value, and the value of the element that `insert` designates is appended to the output. -/
def numberStep {κ : Type} (keyEqual : κ → κ → Bool) (state : UnorderedMap κ × List Nat)
    (key : κ) : UnorderedMap κ × List Nat :=
  let inserted := UnorderedMap.insert keyEqual state.1 (key, state.1.length)
  (inserted.1, state.2 ++ [inserted.2.2])

/-- The value a map holds for the keys of a class, when keys are equivalent exactly when
they have the same class. -/
def valueOf {κ γ : Type} [DecidableEq γ] (cls : κ → γ) (map : UnorderedMap κ) (c : γ) :
    Option Nat :=
  (map.find? (fun element => decide (cls element.1 = c))).map (fun element => element.2)

/-- The state of a numbering loop after the keys `keys`: every class met has its element,
whose value is the number of the class in order of first occurrence; the map has one
element per class met, with the values 0, 1, 2, ... in insertion order; the output lists
the numbers of the classes of the keys. -/
structure Numbered {κ γ : Type} [DecidableEq γ] (cls : κ → γ) (keys : List κ)
    (state : UnorderedMap κ × List Nat) : Prop where
  found : ∀ c ∈ keys.map cls,
    valueOf cls state.1 c = some (firstOccurrenceNumber (keys.map cls) c)
  known : ∀ element ∈ state.1, element.1 ∈ keys
  size : state.1.length = (keys.map cls).dedup.length
  output : state.2 = (keys.map cls).map (firstOccurrenceNumber (keys.map cls))
  values : state.1.map (fun element => element.2) = List.range state.1.length
  own : ∀ element ∈ state.1, valueOf cls state.1 (cls element.1) = some element.2

end ColladaImporter

/-! ## Sample data -/

namespace OpenDdl

/-- A document with four records in one sibling chain, used to evaluate the accessors:
record 0 is a primitive `Int` structure holding the single value at offset 2 of its arena,
record 1 carries a stored tag beyond `Custom`, record 2 is a `Float` array of three values
from offset 1, record 3 is an empty `String` array and is last in its level. -/
def sampleDocument : Document (fun _ => Nat) where
  _structures :=
    [⟨0, ⟨TypeTag.Int, 0, 2, 1⟩, 1⟩,
     ⟨0, ⟨⟨17⟩, 0, 0, 0⟩, 2⟩,
     ⟨0, ⟨TypeTag.Float, 3, 1, 3⟩, 3⟩,
     ⟨0, ⟨TypeTag.String, 0, 0, 0⟩, 0⟩]
  _strings := [""]
  data := fun _ => [10, 20, 30, 40]

/-- Handle of record 0 of `sampleDocument`. -/
def sampleFirst : Structure (fun _ => Nat) := ⟨sampleDocument, ⟨0, by decide⟩⟩

/-- Handle of record 1 of `sampleDocument`. -/
def sampleSecond : Structure (fun _ => Nat) := ⟨sampleDocument, ⟨1, by decide⟩⟩

/-- Handle of record 2 of `sampleDocument`. -/
def sampleThird : Structure (fun _ => Nat) := ⟨sampleDocument, ⟨2, by decide⟩⟩

/-- Handle of record 3 of `sampleDocument`. -/
def sampleFourth : Structure (fun _ => Nat) := ⟨sampleDocument, ⟨3, by decide⟩⟩

/-- A document with one record whose `next` index, 1, lies after the record and designates no
record of the structure array. -/
def danglingDocument : Document (fun _ => Nat) where
  _structures := [⟨0, ⟨TypeTag.Int, 0, 0, 1⟩, 1⟩]
  _strings := [""]
  data := fun _ => [10]

/-- Handle of the record of `danglingDocument`. -/
def danglingFirst : Structure (fun _ => Nat) := ⟨danglingDocument, ⟨0, by decide⟩⟩

/-- A document with two string records over the same range of the string arena: record 0
has the tag `String`, record 1 the tag `Reference`. -/
def sampleStrings : Document (fun _ => Nat) where
  _structures :=
    [⟨0, ⟨TypeTag.String, 0, 1, 1⟩, 1⟩,
     ⟨0, ⟨TypeTag.Reference, 0, 1, 1⟩, 0⟩]
  _strings := [""]
  data := fun _ => [10, 20, 30, 40]

/-- Handle of record 0 of `sampleStrings`, the `String` one. -/
def sampleString : Structure (fun _ => Nat) := ⟨sampleStrings, ⟨0, by decide⟩⟩

/-- Handle of record 1 of `sampleStrings`, the `Reference` one. -/
def sampleReference : Structure (fun _ => Nat) := ⟨sampleStrings, ⟨1, by decide⟩⟩

end OpenDdl

namespace ColladaImporter

/-- A stand-in for `QString::trimmed()` on sample data: the text without the spaces at its
two ends. -/
def trimSpaces (text : String) : String :=
  String.mk
    ((text.toList.dropWhile (fun c => c == ' ')).reverse.dropWhile (fun c => c == ' ')).reverse

/-- The key equality of sample data: the comparison of the tuples at two positions. -/
def sampleIndexEqual (originalIndices : List Nat) (stride a b : Nat) : Bool :=
  decide (tupleAt originalIndices stride a = tupleAt originalIndices stride b)

end ColladaImporter

/-! ## Properties of the accessors -/

namespace OpenDdl

/-- The clamp leaves a stored tag below `Custom` as it is. -/
theorem Structure.type_of_lt {Storage : AccessorType → Type} (s : Structure Storage)
    (h : s.record.primitive.type.val < TypeTag.Custom.val) :
    s.type = s.record.primitive.type :=
  if_pos h

/-- The clamp turns a stored tag at or above `Custom` into `Custom`. -/
theorem Structure.type_of_le {Storage : AccessorType → Type} (s : Structure Storage)
    (h : TypeTag.Custom.val ≤ s.record.primitive.type.val) :
    s.type = TypeTag.Custom :=
  if_neg (Nat.not_lt.mpr h)

/-- C1: `Structure::type()` is the minimum of `Custom` and the stored tag: a stored tag at
or above the `Custom` sentinel reads as `Custom`, a stored tag below it is returned
unchanged, and the result is never above `Custom`. -/
theorem type_eq_min_custom {Storage : AccessorType → Type} (s : Structure Storage) :
    s.type.val = min TypeTag.Custom.val s.record.primitive.type.val ∧
    (TypeTag.Custom.val ≤ s.record.primitive.type.val → s.type = TypeTag.Custom) ∧
    (s.record.primitive.type.val < TypeTag.Custom.val → s.type = s.record.primitive.type) ∧
    s.type.val ≤ TypeTag.Custom.val := by
  refine ⟨?_, s.type_of_le, s.type_of_lt, ?_⟩
  · rcases Nat.lt_or_ge s.record.primitive.type.val TypeTag.Custom.val with h | h
    · rw [s.type_of_lt h]; exact (Nat.min_eq_right (Nat.le_of_lt h)).symm
    · rw [s.type_of_le h]; exact (Nat.min_eq_left h).symm
  · rcases Nat.lt_or_ge s.record.primitive.type.val TypeTag.Custom.val with h | h
    · rw [s.type_of_lt h]; exact Nat.le_of_lt h
    · rw [s.type_of_le h]

/-- C2: `Structure::isCustom()` is true exactly when `type()` is `Custom`, which is
exactly when the stored tag is at or above the `Custom` sentinel; for a stored tag below
`Custom` it is false. -/
theorem isCustom_iff {Storage : AccessorType → Type} (s : Structure Storage) :
    (s.isCustom = true ↔ s.type = TypeTag.Custom) ∧
    (s.type = TypeTag.Custom ↔ TypeTag.Custom.val ≤ s.record.primitive.type.val) ∧
    (s.record.primitive.type.val < TypeTag.Custom.val → s.isCustom = false) := by
  have key : s.type = TypeTag.Custom ↔ TypeTag.Custom.val ≤ s.record.primitive.type.val := by
    constructor
    · intro e
      rcases Nat.lt_or_ge s.record.primitive.type.val TypeTag.Custom.val with h | h
      · rw [s.type_of_lt h] at e
        rw [e] at h
        exact absurd h (Nat.lt_irrefl _)
      · exact h
    · exact s.type_of_le
  have first : s.isCustom = true ↔ s.type = TypeTag.Custom := by
    unfold Structure.isCustom
    exact beq_iff_eq
  refine ⟨first, key, ?_⟩
  intro h
  cases hc : s.isCustom with
  | false => rfl
  | true => exact absurd (key.mp (first.mp hc)) (Nat.not_le.mpr h)

/-- When the array size is not 1, `as<T>()` stops at its first assertion (or at the one of
`arraySize()` itself). -/
theorem Structure.as_of_size_ne {Storage : AccessorType → Type} (T : AccessorType)
    (s : Structure Storage) (h : s.arraySize ≠ .value 1) :
    ∃ message, s.as T = .assertion message := by
  unfold Structure.as
  cases hs : s.arraySize with
  | assertion message => exact ⟨message, rfl⟩
  | undefined =>
    exfalso
    unfold Structure.arraySize at hs
    split at hs <;> cases hs
  | value n =>
    have hn : n ≠ 1 := by
      intro e
      exact h (by rw [hs, e])
    exact ⟨"OpenDdl::Structure::as(): not a single value", by simp [hn]⟩

/-- When the array size is 1 and the type check fails, `as<T>()` stops at its second
assertion. -/
theorem Structure.as_of_type_ne {Storage : AccessorType → Type} (T : AccessorType)
    (s : Structure Storage) (h1 : s.arraySize = .value 1)
    (h2 : Implementation.isStructureType T s.type = false) :
    s.as T = .assertion "OpenDdl::Structure::as(): not of given type" := by
  unfold Structure.as
  rw [h1]
  simp [h2]

/-- When both conditions hold, `as<T>()` reads the arena at `primitive.begin`. -/
theorem Structure.as_of_conditions {Storage : AccessorType → Type} (T : AccessorType)
    (s : Structure Storage) (h : s.asConditions T) :
    s.as T = match (s._document.data T).get? s.record.primitive.begin with
      | some v => .value v
      | none => .undefined := by
  unfold Structure.as
  rw [h.1]
  simp [h.2]

/-- C3: `Structure::as<T>()` passes its assertions exactly when `arraySize() == 1` and
`isStructureType<T>(type())` holds; in that case it returns the element at index
`primitive.begin` of the data arena of `T`; when the array size is not 1 or the type does
not match, the call ends in an assertion, with the message of the assertion that failed. -/
theorem as_passes_iff {Storage : AccessorType → Type} (T : AccessorType)
    (s : Structure Storage) :
    ((∀ message, s.as T ≠ .assertion message) ↔ s.asConditions T) ∧
    (s.asConditions T →
      ∀ h : s.record.primitive.begin < (s._document.data T).length,
        s.as T = .value ((s._document.data T).get ⟨s.record.primitive.begin, h⟩)) ∧
    (¬ s.asConditions T → ∃ message, s.as T = .assertion message) ∧
    (∀ n, s.arraySize = .value n → n ≠ 1 →
      s.as T = .assertion "OpenDdl::Structure::as(): not a single value") ∧
    (s.arraySize = .value 1 → Implementation.isStructureType T s.type = false →
      s.as T = .assertion "OpenDdl::Structure::as(): not of given type") := by
  have fails : ¬ s.asConditions T → ∃ message, s.as T = .assertion message := by
    intro hc
    by_cases h1 : s.arraySize = .value 1
    · have h2 : Implementation.isStructureType T s.type = false := by
        cases ht : Implementation.isStructureType T s.type with
        | false => rfl
        | true => exact absurd ⟨h1, ht⟩ hc
      exact ⟨_, s.as_of_type_ne T h1 h2⟩
    · exact s.as_of_size_ne T h1
  refine ⟨⟨?_, ?_⟩, ?_, fails, ?_, s.as_of_type_ne T⟩
  · intro hno
    by_contra hc
    obtain ⟨message, hm⟩ := fails hc
    exact hno message hm
  · intro hc message
    rw [s.as_of_conditions T hc]
    split <;> intro e <;> cases e
  · intro hc h
    rw [s.as_of_conditions T hc, List.get?_eq_get h]
  · intro n hn hne
    unfold Structure.as
    rw [hn]
    simp [hne]

/-- C3, evaluated: record 0 of the sample document is a single `Int` value at offset 2, so
`as<Int>()` passes and returns element 2 of the arena, 30. -/
theorem as_passes_iff_witness :
    sampleFirst.asConditions AccessorType.Int ∧
    sampleFirst.as AccessorType.Int = .value 30 :=
  ⟨⟨rfl, rfl⟩,
   (as_passes_iff AccessorType.Int sampleFirst).2.1 ⟨rfl, rfl⟩ (by decide)⟩

/-- C4: for a non-custom structure whose type matches `T`, `Structure::asArray<T>()`
returns a view whose size is the stored array size, which is `arraySize()`, and whose
element `i`, for every `i` below that size, is element `primitive.begin + i` of the data
arena of `T`; nothing is required of the size, which may be 0 or more than 1. -/
theorem asArray_view {Storage : AccessorType → Type} (T : AccessorType)
    (s : Structure Storage) (hcustom : s.isCustom = false)
    (htype : Implementation.isStructureType T s.type = true) :
    ∃ view, s.asArray T = .value view ∧
      view.size = s.record.primitive.size ∧
      s.arraySize = .value view.size ∧
      ∀ i, i < view.size →
        view.get? i = (s._document.data T).get? (s.record.primitive.begin + i) := by
  refine ⟨⟨s._document.data T, s.record.primitive.begin, s.record.primitive.size⟩,
    ?_, rfl, ?_, ?_⟩
  · unfold Structure.asArray
    rw [if_pos htype]
  · unfold Structure.arraySize
    simp [hcustom]
  · intro i hi
    unfold ArrayReference.get?
    rw [if_pos hi]

/-- C4, evaluated: record 2 of the sample document is a `Float` array of three values from
offset 1; the view has size 3 and its elements are elements 1, 2 and 3 of the arena. -/
theorem asArray_view_witness :
    sampleThird.isCustom = false ∧
    Implementation.isStructureType AccessorType.Float sampleThird.type = true ∧
    ∃ view, sampleThird.asArray AccessorType.Float = .value view ∧
      view.size = 3 ∧
      sampleThird.arraySize = .value view.size ∧
      ∀ i, i < view.size → view.get? i = [10, 20, 30, 40].get? (1 + i) :=
  ⟨rfl, rfl, asArray_view AccessorType.Float sampleThird rfl rfl⟩

/-- No accessor type accepts the tag `Custom`. -/
theorem Implementation.isStructureType_custom (T : AccessorType) :
    Implementation.isStructureType T TypeTag.Custom = false := by
  cases T <;> rfl

/-- C5: on a custom structure (stored tag at or above `Custom`) the type check
`isStructureType<T>(type())` is false for every accessor type `T`, and both `as<T>()` and
`asArray<T>()` end in an assertion. -/
theorem custom_rejects_accessors {Storage : AccessorType → Type} (s : Structure Storage)
    (hcustom : TypeTag.Custom.val ≤ s.record.primitive.type.val) (T : AccessorType) :
    Implementation.isStructureType T s.type = false ∧
    (∃ message, s.as T = .assertion message) ∧
    s.asArray T = .assertion "OpenDdl::Structure::asArray(): not of given type" := by
  have htype : Implementation.isStructureType T s.type = false := by
    rw [s.type_of_le hcustom]
    exact Implementation.isStructureType_custom T
  refine ⟨htype, ?_, ?_⟩
  · by_cases h1 : s.arraySize = .value 1
    · exact ⟨_, s.as_of_type_ne T h1 htype⟩
    · exact s.as_of_size_ne T h1
  · unfold Structure.asArray
    simp [htype]

/-- C5, evaluated: record 1 of the sample document stores the tag 17, above `Custom`; the
`Float` accessor is rejected by the type check and by both calls. -/
theorem custom_rejects_accessors_witness :
    TypeTag.Custom.val ≤ sampleSecond.record.primitive.type.val ∧
    Implementation.isStructureType AccessorType.Float sampleSecond.type = false ∧
    (∃ message, sampleSecond.as AccessorType.Float = .assertion message) ∧
    sampleSecond.asArray AccessorType.Float =
      .assertion "OpenDdl::Structure::asArray(): not of given type" :=
  ⟨by decide, custom_rejects_accessors sampleSecond (by decide) AccessorType.Float⟩

/-- C6: for `bool` and each numeric accessor type, `isStructureType<T>(t)` holds exactly
when `t` is the tag of the same name (`Bool` for `bool`); nothing is widened or converted,
so a `Short` or `UnsignedInt` tag is rejected by the `Int` accessor, and `as<Int>()` on a
structure of such a type ends in an assertion. -/
theorem isStructureType_exact :
    (∀ t, Implementation.isStructureType .bool t = true ↔ t = TypeTag.Bool) ∧
    (∀ t, Implementation.isStructureType .UnsignedByte t = true ↔ t = TypeTag.UnsignedByte) ∧
    (∀ t, Implementation.isStructureType .Byte t = true ↔ t = TypeTag.Byte) ∧
    (∀ t, Implementation.isStructureType .UnsignedShort t = true ↔
      t = TypeTag.UnsignedShort) ∧
    (∀ t, Implementation.isStructureType .Short t = true ↔ t = TypeTag.Short) ∧
    (∀ t, Implementation.isStructureType .UnsignedInt t = true ↔ t = TypeTag.UnsignedInt) ∧
    (∀ t, Implementation.isStructureType .Int t = true ↔ t = TypeTag.Int) ∧
    (∀ t, Implementation.isStructureType .UnsignedLong t = true ↔ t = TypeTag.UnsignedLong) ∧
    (∀ t, Implementation.isStructureType .Long t = true ↔ t = TypeTag.Long) ∧
    (∀ t, Implementation.isStructureType .Float t = true ↔ t = TypeTag.Float) ∧
    (∀ t, Implementation.isStructureType .Double t = true ↔ t = TypeTag.Double) ∧
    Implementation.isStructureType .Int TypeTag.Short = false ∧
    Implementation.isStructureType .Int TypeTag.UnsignedInt = false ∧
    (∀ (Storage : AccessorType → Type) (s : Structure Storage),
      s.type = TypeTag.Short ∨ s.type = TypeTag.UnsignedInt →
      ∃ message, s.as AccessorType.Int = .assertion message) := by
  refine ⟨fun _ => beq_iff_eq, fun _ => beq_iff_eq, fun _ => beq_iff_eq,
    fun _ => beq_iff_eq, fun _ => beq_iff_eq, fun _ => beq_iff_eq, fun _ => beq_iff_eq,
    fun _ => beq_iff_eq, fun _ => beq_iff_eq, fun _ => beq_iff_eq, fun _ => beq_iff_eq,
    rfl, rfl, ?_⟩
  intro Storage s hs
  have htype : Implementation.isStructureType AccessorType.Int s.type = false := by
    rcases hs with e | e <;> rw [e] <;> rfl
  by_cases h1 : s.arraySize = .value 1
  · exact ⟨_, s.as_of_type_ne AccessorType.Int h1 htype⟩
  · exact s.as_of_size_ne AccessorType.Int h1

/-- C7: `findNext()` returns no value exactly when the `next` index of the record is 0;
otherwise it returns the handle of record `next` of the structure array of the same
document, and of no other record. -/
theorem findNext_spec {Storage : AccessorType → Type} (s : Structure Storage) :
    (s.findNext = .value none ↔ s.record.next = 0) ∧
    (s.record.next ≠ 0 →
      ∀ h : s.record.next < s._document._structures.length,
        s.findNext = .value (some ⟨s._document, ⟨s.record.next, h⟩⟩)) ∧
    (∀ t, s.findNext = .value (some t) →
      t._document = s._document ∧ t.index = s.record.next ∧ s.record.next ≠ 0) := by
  refine ⟨⟨?_, ?_⟩, ?_, ?_⟩
  · intro h
    by_contra hne
    unfold Structure.findNext at h
    rw [if_neg hne] at h
    split at h <;> cases h
  · intro h
    unfold Structure.findNext
    rw [if_pos h]
  · intro hne h
    unfold Structure.findNext
    rw [if_neg hne, dif_pos h]
  · intro t ht
    unfold Structure.findNext at ht
    by_cases hz : s.record.next = 0
    · rw [if_pos hz] at ht
      cases ht
    · rw [if_neg hz] at ht
      by_cases hlt : s.record.next < s._document._structures.length
      · rw [dif_pos hlt] at ht
        cases ht
        exact ⟨rfl, rfl, hz⟩
      · rw [dif_neg hlt] at ht
        cases ht

/-- C7, evaluated: record 0 of the sample document has `next` 1 and `findNext()` returns
the handle of record 1; record 3 has `next` 0 and `findNext()` returns no value. -/
theorem findNext_spec_witness :
    sampleFirst.findNext = .value (some sampleSecond) ∧
    sampleFourth.findNext = .value none :=
  ⟨(findNext_spec sampleFirst).2.1 (by decide) (by decide),
   (findNext_spec sampleFourth).1.mpr rfl⟩

/-- C8, as stated, fails: `Type` is one of the primitive tags, and no accessor type with a
specialisation of `isStructureType` in `Structure.h` accepts it. -/
theorem no_accessor_for_type_tag :
    TypeTag.Type_ ∈ TypeTag.primitives ∧
    ¬ ∃ T, Implementation.isStructureType T TypeTag.Type_ = true := by
  refine ⟨by decide, ?_⟩
  rintro ⟨T, hT⟩
  cases T <;> cases hT

/-- C8, amended: every primitive tag other than `Type` is accepted by some accessor type,
so a primitive structure of such a type is read by `asArray<T>()`, and by `as<T>()` when
its array size is 1; the tag `Type` is accepted by no accessor type. -/
theorem accessor_for_primitive_tag :
    (∀ tag ∈ TypeTag.primitives, tag ≠ TypeTag.Type_ →
      ∃ T, Implementation.isStructureType T tag = true) ∧
    (∀ (Storage : AccessorType → Type) (s : Structure Storage),
      s.record.primitive.type ∈ TypeTag.primitives →
      s.record.primitive.type ≠ TypeTag.Type_ →
      ∃ T, (∃ view, s.asArray T = .value view) ∧
        (s.record.primitive.size = 1 → s.asConditions T)) ∧
    (∀ T, Implementation.isStructureType T TypeTag.Type_ = false) := by
  have tags : ∀ tag ∈ TypeTag.primitives, tag ≠ TypeTag.Type_ →
      ∃ T, Implementation.isStructureType T tag = true := by
    intro tag hmem hne
    simp only [TypeTag.primitives, List.mem_cons, List.mem_singleton, List.not_mem_nil,
      or_false] at hmem
    rcases hmem with e | e | e | e | e | e | e | e | e | e | e | e | e | e
    · exact ⟨.bool, by rw [e]; rfl⟩
    · exact ⟨.UnsignedByte, by rw [e]; rfl⟩
    · exact ⟨.Byte, by rw [e]; rfl⟩
    · exact ⟨.UnsignedShort, by rw [e]; rfl⟩
    · exact ⟨.Short, by rw [e]; rfl⟩
    · exact ⟨.UnsignedInt, by rw [e]; rfl⟩
    · exact ⟨.Int, by rw [e]; rfl⟩
    · exact ⟨.UnsignedLong, by rw [e]; rfl⟩
    · exact ⟨.Long, by rw [e]; rfl⟩
    · exact ⟨.Float, by rw [e]; rfl⟩
    · exact ⟨.Double, by rw [e]; rfl⟩
    · exact ⟨.string, by rw [e]; rfl⟩
    · exact ⟨.string, by rw [e]; rfl⟩
    · exact absurd e hne
  have below : ∀ tag ∈ TypeTag.primitives, tag.val < TypeTag.Custom.val := by decide
  refine ⟨tags, ?_, ?_⟩
  · intro Storage s hmem hne
    have hlt := below _ hmem
    obtain ⟨T, hT⟩ := tags _ hmem hne
    have htype : Implementation.isStructureType T s.type = true := by
      rw [s.type_of_lt hlt]; exact hT
    have hnc : s.isCustom = false := by
      unfold Structure.isCustom
      rw [s.type_of_lt hlt]
      apply beq_false_of_ne
      intro e
      rw [e] at hlt
      exact absurd hlt (Nat.lt_irrefl _)
    refine ⟨T, ⟨⟨s._document.data T, s.record.primitive.begin, s.record.primitive.size⟩,
      ?_⟩, ?_⟩
    · unfold Structure.asArray
      rw [if_pos htype]
    · intro hsize
      refine ⟨?_, htype⟩
      unfold Structure.arraySize
      simp [hnc, hsize]
  · intro T
    cases T <;> rfl

/-- C8, amended, evaluated: the tag `Reference` is accepted by the string accessor, and
record 2 of the sample document, a `Float` array, is read by some `asArray<T>()`. -/
theorem accessor_for_primitive_tag_witness :
    (∃ T, Implementation.isStructureType T TypeTag.Reference = true) ∧
    (∃ T, (∃ view, sampleThird.asArray T = .value view) ∧
      (sampleThird.record.primitive.size = 1 → sampleThird.asConditions T)) :=
  ⟨accessor_for_primitive_tag.1 TypeTag.Reference (by decide) (by decide),
   accessor_for_primitive_tag.2.1 _ sampleThird (by decide) (by decide)⟩

/-- One step of the iteration from a record whose `next` is 0. -/
theorem Structure.walk_of_last {Storage : AccessorType → Type} (s : Structure Storage)
    (h : s.record.next = 0) (fuel : Nat) :
    s.walk (fuel + 1) = .ended [s] := by
  have hfind : s.findNext = .value none := by
    unfold Structure.findNext
    rw [if_pos h]
  simp [Structure.walk, hfind]

/-- One step of the iteration from a record whose `next` designates a record. -/
theorem Structure.walk_of_next {Storage : AccessorType → Type} (s : Structure Storage)
    (hne : s.record.next ≠ 0) (h : s.record.next < s._document._structures.length)
    (fuel : Nat) :
    s.walk (fuel + 1) =
      Traversal.cons s (Structure.walk fuel ⟨s._document, ⟨s.record.next, h⟩⟩) := by
  have hfind : s.findNext = .value (some ⟨s._document, ⟨s.record.next, h⟩⟩) := by
    unfold Structure.findNext
    rw [if_neg hne, dif_pos h]
  simp [Structure.walk, hfind]

/-- The iteration over forward links that designate records, by induction on the number of
records that lie at or after the starting one. -/
theorem Structure.walk_forward {Storage : AccessorType → Type} (d : Document Storage)
    (hforward : ∀ i (h : i < d._structures.length),
      (d._structures.get ⟨i, h⟩).next ≠ 0 → i < (d._structures.get ⟨i, h⟩).next)
    (hrange : ∀ i (h : i < d._structures.length),
      (d._structures.get ⟨i, h⟩).next ≠ 0 →
        (d._structures.get ⟨i, h⟩).next < d._structures.length) :
    ∀ k (i : Fin d._structures.length), d._structures.length - i.val ≤ k →
      ∃ visited : List (Structure Storage),
        (∀ fuel, k ≤ fuel → Structure.walk fuel ⟨d, i⟩ = .ended visited) ∧
        visited.head? = some ⟨d, i⟩ ∧
        visited.length ≤ k ∧
        (∀ t ∈ visited, t._document = d ∧ i.val ≤ t.index) ∧
        (visited.map Structure.index).Pairwise (fun a b => a < b) ∧
        visited.Chain' (fun a b => a.record.next ≠ 0 ∧ b.index = a.record.next) ∧
        (∀ last, visited.getLast? = some last → last.record.next = 0) ∧
        visited.Chain' (fun a b => a.findNext = .value (some b)) ∧
        (∀ last, visited.getLast? = some last → last.findNext = .value none) := by
  intro k
  induction k with
  | zero =>
    intro i hk
    have := i.isLt
    omega
  | succ k ih =>
    intro i hk
    by_cases hz : (d._structures.get i).next = 0
    · refine ⟨[⟨d, i⟩], ?_, rfl, ?_, ?_, ?_, ?_, ?_, ?_, ?_⟩
      · intro fuel hfuel
        obtain ⟨f, rfl⟩ : ∃ f, fuel = f + 1 := ⟨fuel - 1, by omega⟩
        exact Structure.walk_of_last ⟨d, i⟩ hz f
      · simp
      · intro t ht
        rw [List.mem_singleton] at ht
        subst ht
        exact ⟨rfl, Nat.le_refl _⟩
      · simp
      · simp
      · intro last hlast
        simp only [List.getLast?_singleton, Option.some.injEq] at hlast
        subst hlast
        exact hz
      · simp
      · intro last hlast
        simp only [List.getLast?_singleton, Option.some.injEq] at hlast
        subst hlast
        exact if_pos hz
    · have hlt : (d._structures.get i).next < d._structures.length :=
        hrange i.val i.isLt hz
      have hgt : i.val < (d._structures.get i).next := hforward i.val i.isLt hz
      obtain ⟨rest, hwalk, hhead, hlen, hall, hsorted, hlinks, hend, hchain, hlast⟩ :=
        ih ⟨(d._structures.get i).next, hlt⟩ (by simp only; omega)
      refine ⟨⟨d, i⟩ :: rest, ?_, rfl, ?_, ?_, ?_, ?_, ?_, ?_, ?_⟩
      · intro fuel hfuel
        obtain ⟨f, rfl⟩ : ∃ f, fuel = f + 1 := ⟨fuel - 1, by omega⟩
        rw [Structure.walk_of_next ⟨d, i⟩ hz hlt f]
        have := hwalk f (by omega)
        simp only [Structure.record] at this ⊢
        rw [this]
        rfl
      · simp only [List.length_cons]
        omega
      · intro t ht
        rcases List.mem_cons.mp ht with e | e
        · subst e
          exact ⟨rfl, Nat.le_refl _⟩
        · obtain ⟨h1, h2⟩ := hall t e
          exact ⟨h1, by simp only at h2; omega⟩
      · rw [List.map_cons, List.pairwise_cons]
        refine ⟨?_, hsorted⟩
        intro b hb
        obtain ⟨t, ht, rfl⟩ := List.mem_map.mp hb
        have h2 := (hall t ht).2
        simp only at h2
        show i.val < t.index
        omega
      · cases rest with
        | nil => simp
        | cons r rest =>
          rw [List.chain'_cons]
          refine ⟨?_, hlinks⟩
          simp only [List.head?_cons, Option.some.injEq] at hhead
          subst hhead
          exact ⟨hz, rfl⟩
      · intro last hl
        cases rest with
        | nil => simp at hhead
        | cons r rest =>
          rw [List.getLast?_cons_cons] at hl
          exact hend last hl
      · cases rest with
        | nil => simp
        | cons r rest =>
          rw [List.chain'_cons]
          refine ⟨?_, hchain⟩
          simp only [List.head?_cons, Option.some.injEq] at hhead
          subst hhead
          unfold Structure.findNext
          simp only [Structure.record]
          rw [if_neg hz, dif_pos hlt]
      · intro last hl
        cases rest with
        | nil => simp at hhead
        | cons r rest =>
          rw [List.getLast?_cons_cons] at hl
          exact hlast last hl

/-- C10, as stated, fails when a forward link designates no record: in a document of one
record whose `next` is 1, the link points forward, `findNext()` indexes the structure array
beyond its end, and the iteration never ends with "no value". -/
theorem dangling_forward_link :
    (∀ i (h : i < danglingFirst._document._structures.length),
      (danglingFirst._document._structures.get ⟨i, h⟩).next ≠ 0 →
        i < (danglingFirst._document._structures.get ⟨i, h⟩).next) ∧
    danglingFirst.record.next = 1 ∧
    danglingFirst._document._structures.length = 1 ∧
    danglingFirst.findNext = .undefined ∧
    (∀ fuel visited, danglingFirst.walk fuel ≠ .ended visited) := by
  have hfind : danglingFirst.findNext = .undefined := rfl
  refine ⟨by decide, rfl, rfl, hfind, ?_⟩
  intro fuel visited
  cases fuel with
  | zero =>
    intro h
    simp [Structure.walk] at h
  | succ fuel =>
    intro h
    simp [Structure.walk, hfind] at h

/-- C10, amended: in a document in which every non-zero `next` index is greater than the
index of the record that holds it and is the index of a record of the structure array,
iterating `findNext()` from any structure ends with "no value" within as many steps as
there are records from the starting one on (and with any larger number of steps allowed);
the visited structures start with the given one, belong to the same document, are the
sibling chain (each is the record at the non-zero `next` index of the one before, and the
last has `next` 0, as `findNext()` returns them), and have strictly increasing indices, so
none is visited twice. -/
theorem findNext_iteration_terminates {Storage : AccessorType → Type}
    (s : Structure Storage)
    (hforward : ∀ i (h : i < s._document._structures.length),
      (s._document._structures.get ⟨i, h⟩).next ≠ 0 →
        i < (s._document._structures.get ⟨i, h⟩).next)
    (hrange : ∀ i (h : i < s._document._structures.length),
      (s._document._structures.get ⟨i, h⟩).next ≠ 0 →
        (s._document._structures.get ⟨i, h⟩).next < s._document._structures.length) :
    ∃ visited : List (Structure Storage),
      (∀ fuel, s._document._structures.length - s.index ≤ fuel →
        s.walk fuel = .ended visited) ∧
      visited.head? = some s ∧
      visited.length ≤ s._document._structures.length - s.index ∧
      (∀ t ∈ visited, t._document = s._document) ∧
      (visited.map Structure.index).Pairwise (fun a b => a < b) ∧
      (visited.map Structure.index).Nodup ∧
      visited.Chain' (fun a b => a.record.next ≠ 0 ∧ b.index = a.record.next) ∧
      (∀ last, visited.getLast? = some last → last.record.next = 0) ∧
      visited.Chain' (fun a b => a.findNext = .value (some b)) ∧
      (∀ last, visited.getLast? = some last → last.findNext = .value none) := by
  obtain ⟨d, i⟩ := s
  obtain ⟨visited, hwalk, hhead, hlen, hall, hsorted, hlinks, hend, hchain, hlast⟩ :=
    Structure.walk_forward d hforward hrange (d._structures.length - i.val) i (Nat.le_refl _)
  exact ⟨visited, hwalk, hhead, hlen, fun t ht => (hall t ht).1, hsorted,
    hsorted.imp (fun h => Nat.ne_of_lt h), hlinks, hend, hchain, hlast⟩

/-- C10, amended, evaluated: the four records of the sample document are linked 0, 1, 2, 3
and the last has `next` 0; the iteration from record 0 visits the four records in this
order and ends within four steps. -/
theorem findNext_iteration_terminates_witness :
    (∀ i (h : i < sampleFirst._document._structures.length),
      (sampleFirst._document._structures.get ⟨i, h⟩).next ≠ 0 →
        i < (sampleFirst._document._structures.get ⟨i, h⟩).next) ∧
    (∀ i (h : i < sampleFirst._document._structures.length),
      (sampleFirst._document._structures.get ⟨i, h⟩).next ≠ 0 →
        (sampleFirst._document._structures.get ⟨i, h⟩).next <
          sampleFirst._document._structures.length) ∧
    sampleFirst.walk 4 = .ended [sampleFirst, sampleSecond, sampleThird, sampleFourth] ∧
    ∃ visited : List (Structure (fun _ => Nat)),
      (∀ fuel, 4 ≤ fuel → sampleFirst.walk fuel = .ended visited) ∧
      visited.head? = some sampleFirst ∧
      visited.length ≤ 4 ∧
      (∀ t ∈ visited, t._document = sampleDocument) ∧
      (visited.map Structure.index).Pairwise (fun a b => a < b) ∧
      (visited.map Structure.index).Nodup ∧
      visited.Chain' (fun a b => a.record.next ≠ 0 ∧ b.index = a.record.next) ∧
      (∀ last, visited.getLast? = some last → last.record.next = 0) ∧
      visited.Chain' (fun a b => a.findNext = .value (some b)) ∧
      (∀ last, visited.getLast? = some last → last.findNext = .value none) :=
  ⟨by decide, by decide, rfl,
   findNext_iteration_terminates sampleFirst (by decide) (by decide)⟩

/-- C19: the string accessor accepts exactly the tags `String` and `Reference`; two
structures of these types that designate the same range of the same string arena give the
same result through `as<std::string>()` and through `asArray<std::string>()`, whichever of
the two tags each carries. -/
theorem string_accessor_accepts_two :
    (∀ t, Implementation.isStructureType .string t = true ↔
      t = TypeTag.String ∨ t = TypeTag.Reference) ∧
    (∀ (Storage : AccessorType → Type) (s r : Structure Storage),
      (s.type = TypeTag.String ∨ s.type = TypeTag.Reference) →
      (r.type = TypeTag.String ∨ r.type = TypeTag.Reference) →
      s._document.data .string = r._document.data .string →
      s.record.primitive.begin = r.record.primitive.begin →
      s.record.primitive.size = r.record.primitive.size →
      s.as .string = r.as .string ∧ s.asArray .string = r.asArray .string) := by
  have accepts : ∀ t, Implementation.isStructureType .string t = true ↔
      t = TypeTag.String ∨ t = TypeTag.Reference := by
    intro t
    unfold Implementation.isStructureType
    rw [Bool.or_eq_true, beq_iff_eq, beq_iff_eq]
  refine ⟨accepts, ?_⟩
  intro Storage s r hs hr hdata hbegin hsize
  have hsT := (accepts s.type).mpr hs
  have hrT := (accepts r.type).mpr hr
  have notCustom : ∀ x : Structure Storage,
      (x.type = TypeTag.String ∨ x.type = TypeTag.Reference) → x.isCustom = false := by
    intro x hx
    unfold Structure.isCustom
    rcases hx with e | e <;> rw [e] <;> rfl
  constructor
  · unfold Structure.as Structure.arraySize
    rw [notCustom s hs, notCustom r hr, hsT, hrT, hdata, hbegin, hsize]
  · unfold Structure.asArray
    rw [hsT, hrT, hdata, hbegin, hsize]

/-- C19, evaluated: the `String` record and the `Reference` record of the sample document
designate element 1 of the string arena, and both accessors return the same for them. -/
theorem string_accessor_accepts_two_witness :
    sampleString.type = TypeTag.String ∧ sampleReference.type = TypeTag.Reference ∧
    sampleString.as .string = .value 20 ∧
    sampleString.as .string = sampleReference.as .string ∧
    sampleString.asArray .string = sampleReference.asArray .string :=
  ⟨rfl, rfl, rfl,
   string_accessor_accepts_two.2 _ sampleString sampleReference (Or.inl rfl) (Or.inr rfl)
     rfl rfl rfl⟩

end OpenDdl

/-! ## Properties of the OpenGEX schema table -/

namespace OpenGex

open OpenDdl OpenDdl.Validation

/-- A declared child identifier is no cardinality violation when every range the table
gives for it contains its count. -/
theorem Validation.not_mem_cardinalityViolations (allowed : Structures)
    (children : List Int) (identifier : Int)
    (h : ∀ range, (identifier, range) ∈ allowed →
      countWithin (tally children identifier) range = true) :
    identifier ∉ cardinalityViolations allowed children := by
  unfold cardinalityViolations
  intro hmem
  obtain ⟨entry, hentry, hid⟩ := List.mem_map.mp hmem
  obtain ⟨hin, hout⟩ := List.mem_filter.mp hentry
  have hrange := h entry.2 (by rw [← hid]; exact hin)
  rw [hid, hrange] at hout
  cases hout

/-- C9: in `structureInfo` the entry of `Mesh` declares `VertexArray` as a child with
minimum 1 and maximum 0 (unbounded), and with no other range; by the cardinality rule a
`Mesh` without children violates the constraint of `VertexArray`, and a `Mesh` with at
least one `VertexArray` child satisfies it, whatever the number. -/
theorem mesh_requires_vertexArray :
    ∃ entry, findInfo structureInfo Mesh = some entry ∧
      entry.structures =
        [(VertexArray, (1, 0)), (IndexArray, (0, 0)), (Skin, (0, 1)), (Extension, (0, 0))] ∧
      (∀ range, (VertexArray, range) ∈ entry.structures ↔ range = (1, 0)) ∧
      countWithin (tally [] VertexArray) (1, 0) = false ∧
      VertexArray ∈ cardinalityViolations entry.structures [] ∧
      (∀ n : Int, 1 ≤ n → countWithin n (1, 0) = true) ∧
      (∀ children, 1 ≤ tally children VertexArray →
        VertexArray ∉ cardinalityViolations entry.structures children) := by
  have hrange : ∀ range : Int × Int,
      (VertexArray, range) ∈
        [(VertexArray, ((1 : Int), (0 : Int))), (IndexArray, (0, 0)), (Skin, (0, 1)),
         (Extension, (0, 0))] ↔ range = (1, 0) := by
    intro range
    simp [VertexArray, IndexArray, Skin, Extension]
  have hcount : ∀ n : Int, 1 ≤ n → countWithin n (1, 0) = true := by
    intro n hn
    simp [countWithin, hn]
  refine ⟨_, rfl, rfl, hrange, by decide, by decide, hcount, ?_⟩
  intro children hchildren
  apply Validation.not_mem_cardinalityViolations
  intro range hmem
  rw [(hrange range).mp hmem]
  exact hcount _ hchildren

/-- C11: the list `structures` has 39 entries, as many as the structure-identifier
enumeration, and entry `i` is the spelling of the enumerator of value `i`; the list
`properties` has 23 entries aligned in the same way with the property-identifier
enumeration; in each list the names are ASCII, in strictly ascending byte order, and so
pairwise distinct. -/
theorem name_tables_aligned :
    structures.length = 39 ∧ structureEnumerators.length = 39 ∧
    structures = structureEnumerators.map (fun e => e.1) ∧
    structureEnumerators.map (fun e => e.2) = (List.range 39).map (fun i : Nat => (i : Int)) ∧
    properties.length = 23 ∧ propertyEnumerators.length = 23 ∧
    properties = propertyEnumerators.map (fun e => e.1) ∧
    propertyEnumerators.map (fun e => e.2) = (List.range 23).map (fun i : Nat => (i : Int)) ∧
    (∀ name ∈ structures ++ properties, ∀ byte ∈ bytes name, byte < 128) ∧
    structures.Pairwise (fun a b => byteLess (bytes a) (bytes b) = true) ∧
    properties.Pairwise (fun a b => byteLess (bytes a) (bytes b) = true) ∧
    structures.Nodup ∧ properties.Nodup := by
  refine ⟨rfl, rfl, rfl, rfl, rfl, rfl, rfl, rfl, ?_, ?_, ?_, ?_, ?_⟩
  · decide
  · decide
  · decide
  · decide
  · decide

/-- C12: `structureInfo` has exactly one entry for every identifier from `Animation` (0)
to `VertexArray` (38) and no entry for any other identifier, and every identifier that
appears in `rootStructures` or in the child list of an entry has an entry. -/
theorem structureInfo_describes_each_once :
    (∀ identifier : Int, 0 ≤ identifier → identifier ≤ 38 →
      (structureInfo.filter (fun entry => entry.identifier == identifier)).length = 1) ∧
    structureInfo.map (fun entry => entry.identifier) =
      (List.range 39).map (fun i : Nat => (i : Int)) ∧
    Animation = 0 ∧ VertexArray = 38 ∧
    (∀ root ∈ rootStructures, ∃ entry ∈ structureInfo, entry.identifier = root.1) ∧
    (∀ parent ∈ structureInfo, ∀ child ∈ parent.structures,
      ∃ entry ∈ structureInfo, entry.identifier = child.1) := by
  refine ⟨?_, rfl, rfl, rfl, ?_, ?_⟩
  · intro identifier h0 h38
    have hlt : identifier.toNat < 39 := by omega
    have hcast : (identifier.toNat : Int) = identifier := Int.toNat_of_nonneg h0
    have hmem : identifier ∈ (List.range 39).map (fun i : Nat => (i : Int)) :=
      List.mem_map.mpr ⟨identifier.toNat, List.mem_range.mpr hlt, hcast⟩
    have each : ∀ known ∈ (List.range 39).map (fun i : Nat => (i : Int)),
        (structureInfo.filter (fun entry => entry.identifier == known)).length = 1 := by
      decide
    exact each identifier hmem
  · decide
  · decide

/-- The allowed-root check accepts the identifiers listed in the table of roots. -/
theorem Validation.allowedAtRoot_iff (roots : Structures) (identifier : Int) :
    allowedAtRoot roots identifier = true ↔
      identifier ∈ roots.map (fun root => root.1) := by
  unfold allowedAtRoot
  rw [List.any_eq_true, List.mem_map]
  constructor
  · rintro ⟨root, hroot, heq⟩
    exact ⟨root, hroot, beq_iff_eq.mp heq⟩
  · rintro ⟨root, hroot, heq⟩
    exact ⟨root, hroot, beq_iff_eq.mpr heq⟩

/-- C13: an identifier passes the allowed-root check of the OpenGEX schema exactly when it
is one of the twelve identifiers of `rootStructures`, each of which has the range (0, 0),
which admits every count; any other identifier, such as `Mesh`, `Name` or `VertexArray`,
does not pass. -/
theorem allowed_roots_are_twelve :
    (∀ identifier, allowedAtRoot rootStructures identifier = true ↔
      identifier ∈ [BoneNode, CameraNode, CameraObject, Clip, Extension, GeometryNode,
        GeometryObject, LightNode, LightObject, Material, Metric, Node]) ∧
    rootStructures.length = 12 ∧
    (rootStructures.map (fun root => root.1)).Nodup ∧
    (∀ root ∈ rootStructures, root.2 = (0, 0)) ∧
    (∀ count : Int, 0 ≤ count → countWithin count (0, 0) = true) ∧
    (∀ identifier, identifier ∉ [BoneNode, CameraNode, CameraObject, Clip, Extension,
        GeometryNode, GeometryObject, LightNode, LightObject, Material, Metric, Node] →
      allowedAtRoot rootStructures identifier = false) ∧
    allowedAtRoot rootStructures Mesh = false ∧
    allowedAtRoot rootStructures Name = false ∧
    allowedAtRoot rootStructures VertexArray = false := by
  have hiff : ∀ identifier, allowedAtRoot rootStructures identifier = true ↔
      identifier ∈ [BoneNode, CameraNode, CameraObject, Clip, Extension, GeometryNode,
        GeometryObject, LightNode, LightObject, Material, Metric, Node] :=
    fun identifier => Validation.allowedAtRoot_iff rootStructures identifier
  refine ⟨hiff, rfl, by decide, by decide, ?_, ?_, by decide, by decide, by decide⟩
  · intro count hcount
    simp [countWithin, hcount]
  · intro identifier hnot
    cases h : allowedAtRoot rootStructures identifier with
    | false => rfl
    | true => exact absurd ((hiff identifier).mp h) hnot

/-- Every identifier collected by following child lists is reachable. -/
theorem Reachable.of_mem_reached (info : List Validation.Structure)
    (roots : Validation.Structures) :
    ∀ rounds, ∀ identifier ∈ reached info roots rounds, Reachable info roots identifier := by
  intro rounds
  induction rounds with
  | zero =>
    intro identifier hmem
    obtain ⟨root, hroot, rfl⟩ := List.mem_map.mp (List.mem_dedup.mp hmem)
    exact Reachable.root root.1 root.2 hroot
  | succ rounds ih =>
    intro identifier hmem
    rcases List.mem_append.mp (List.mem_dedup.mp hmem) with hseen | hnew
    · exact ih identifier hseen
    · obtain ⟨children, hchildren, hin⟩ := List.mem_flatten.mp hnew
      obtain ⟨parent, hparent, rfl⟩ := List.mem_map.mp hchildren
      obtain ⟨names, hnames, hname⟩ := List.mem_flatten.mp hin
      obtain ⟨entry, hentry, rfl⟩ := List.mem_map.mp hnames
      obtain ⟨child, hchild, rfl⟩ := List.mem_map.mp hname
      obtain ⟨hinfo, hid⟩ := List.mem_filter.mp hentry
      have hreach : Reachable info roots entry.identifier := by
        rw [beq_iff_eq.mp hid]
        exact ih parent hparent
      exact Reachable.child entry child.1 child.2 hreach hinfo hchild

/-- C20: every structure identifier of the OpenGEX schema, from 0 to 38, is reached from
`rootStructures` by following the child lists of `structureInfo` (four rounds suffice, and
exactly 39 identifiers are reached), so the identifier of every entry is reachable. -/
theorem all_identifiers_reachable :
    (∀ identifier : Int, 0 ≤ identifier → identifier ≤ 38 →
      Reachable structureInfo rootStructures identifier) ∧
    (∀ entry ∈ structureInfo, Reachable structureInfo rootStructures entry.identifier) ∧
    (reached structureInfo rootStructures 4).length = 39 ∧
    (∀ i : Nat, i < 39 → (i : Int) ∈ reached structureInfo rootStructures 4) := by
  have hall : ∀ i : Nat, i < 39 → (i : Int) ∈ reached structureInfo rootStructures 4 := by
    set_option maxRecDepth 100000 in decide
  have hcount : (reached structureInfo rootStructures 4).length = 39 := by
    set_option maxRecDepth 100000 in decide
  have hrange : ∀ identifier : Int, 0 ≤ identifier → identifier ≤ 38 →
      Reachable structureInfo rootStructures identifier := by
    intro identifier h0 h38
    have hlt : identifier.toNat < 39 := by omega
    have hcast : (identifier.toNat : Int) = identifier := Int.toNat_of_nonneg h0
    rw [← hcast]
    exact Reachable.of_mem_reached _ _ 4 _ (hall _ hlt)
  refine ⟨hrange, ?_, hcount, hall⟩
  intro entry hentry
  have hbounds : ∀ known ∈ structureInfo, 0 ≤ known.identifier ∧ known.identifier ≤ 38 := by
    decide
  exact hrange _ (hbounds entry hentry).1 (hbounds entry hentry).2

end OpenGex

/-! ## Properties of the COLLADA importer -/

namespace ColladaImporter

open OpenDdl (Outcome)

/-- Appending a value does not change the number of a value that occurred before. -/
theorem firstOccurrenceNumber_append_of_mem {γ : Type} [DecidableEq γ] (values : List γ)
    (added : List γ) (c : γ) (h : c ∈ values) :
    firstOccurrenceNumber (values ++ added) c = firstOccurrenceNumber values c := by
  unfold firstOccurrenceNumber
  rw [List.indexOf_append_of_mem h, List.take_append_of_le_length List.indexOf_le_length]

/-- A value that occurs for the first time gets the number of distinct values before it. -/
theorem firstOccurrenceNumber_append_of_not_mem {γ : Type} [DecidableEq γ]
    (values : List γ) (c : γ) (h : c ∉ values) :
    firstOccurrenceNumber (values ++ [c]) c = values.dedup.length := by
  unfold firstOccurrenceNumber
  rw [List.indexOf_append_of_not_mem h, List.indexOf_cons_self, Nat.add_zero, List.take_left]

/-- Appending a value that occurred before leaves the number of distinct values. -/
theorem dedup_length_append_of_mem {γ : Type} [DecidableEq γ] (values : List γ) (c : γ)
    (h : c ∈ values) : (values ++ [c]).dedup.length = values.dedup.length := by
  rw [(List.perm_append_singleton c values).dedup.length_eq, List.dedup_cons_of_mem h]

/-- Appending a new value adds one to the number of distinct values. -/
theorem dedup_length_append_of_not_mem {γ : Type} [DecidableEq γ] (values : List γ) (c : γ)
    (h : c ∉ values) : (values ++ [c]).dedup.length = values.dedup.length + 1 := by
  rw [(List.perm_append_singleton c values).dedup.length_eq, List.dedup_cons_of_not_mem h,
    List.length_cons]

/-- A value found in a map is found in the map extended at its end. -/
theorem valueOf_append_of_some {κ γ : Type} [DecidableEq γ] (cls : κ → γ)
    (map added : UnorderedMap κ) (c : γ) (v : Nat) (h : valueOf cls map c = some v) :
    valueOf cls (map ++ added) c = some v := by
  unfold valueOf at h ⊢
  rw [List.find?_append]
  cases hfind : List.find? (fun element => decide (cls element.1 = c)) map with
  | none => rw [hfind] at h; cases h
  | some element => rw [hfind] at h; exact h

/-- A class without element in a map is looked up in what is appended to the map. -/
theorem valueOf_append_of_none {κ γ : Type} [DecidableEq γ] (cls : κ → γ)
    (map added : UnorderedMap κ) (c : γ) (h : valueOf cls map c = none) :
    valueOf cls (map ++ added) c = valueOf cls added c := by
  unfold valueOf at h ⊢
  rw [List.find?_append]
  cases hfind : List.find? (fun element => decide (cls element.1 = c)) map with
  | none => rfl
  | some element => rw [hfind] at h; cases h

/-- A class none of whose keys is in the map has no element. -/
theorem valueOf_eq_none {κ γ : Type} [DecidableEq γ] (cls : κ → γ) (map : UnorderedMap κ)
    (c : γ) (h : ∀ element ∈ map, cls element.1 ≠ c) : valueOf cls map c = none := by
  unfold valueOf
  rw [Option.map_eq_none', List.find?_eq_none]
  intro element hmem hdec
  exact h element hmem (of_decide_eq_true hdec)

/-- The lookup of the source, with a key-equality predicate that compares classes. -/
theorem find_eq_find_class {κ γ : Type} [DecidableEq γ] (cls : κ → γ)
    (keyEqual : κ → κ → Bool) (hkey : ∀ a b, keyEqual a b = decide (cls a = cls b))
    (map : UnorderedMap κ) (key : κ) :
    UnorderedMap.find keyEqual map key =
      List.find? (fun element => decide (cls element.1 = cls key)) map := by
  unfold UnorderedMap.find
  congr 1
  funext element
  exact hkey element.1 key

/-- One round of a numbering loop keeps the description of its state. -/
theorem Numbered.step {κ γ : Type} [DecidableEq γ] (cls : κ → γ) (keyEqual : κ → κ → Bool)
    (hkey : ∀ a b, keyEqual a b = decide (cls a = cls b)) (keys : List κ)
    (state : UnorderedMap κ × List Nat) (key : κ) (h : Numbered cls keys state) :
    Numbered cls (keys ++ [key]) (numberStep keyEqual state key) := by
  have hmap : (keys ++ [key]).map cls = keys.map cls ++ [cls key] := by
    rw [List.map_append, List.map_singleton]
  by_cases hc : cls key ∈ keys.map cls
  · -- the class was met: the map keeps its elements
    have hvalue := h.found (cls key) hc
    obtain ⟨element, hfound, hsecond⟩ : ∃ element,
        List.find? (fun element => decide (cls element.1 = cls key)) state.1 = some element ∧
        element.2 = firstOccurrenceNumber (keys.map cls) (cls key) := by
      unfold valueOf at hvalue
      exact Option.map_eq_some'.mp hvalue
    have hstep : numberStep keyEqual state key = (state.1, state.2 ++ [element.2]) := by
      unfold numberStep UnorderedMap.insert
      simp only [find_eq_find_class cls keyEqual hkey, hfound]
    have hold : ∀ c ∈ keys.map cls ++ [cls key], c ∈ keys.map cls := by
      intro c hmem
      rcases List.mem_append.mp hmem with h1 | h1
      · exact h1
      · rw [List.mem_singleton.mp h1]; exact hc
    rw [hstep]
    refine ⟨?_, ?_, ?_, ?_, h.values, h.own⟩
    · intro c hmem
      rw [hmap] at hmem ⊢
      rw [firstOccurrenceNumber_append_of_mem _ _ _ (hold c hmem)]
      exact h.found c (hold c hmem)
    · intro e he
      exact List.mem_append_left _ (h.known e he)
    · rw [hmap, dedup_length_append_of_mem _ _ hc]
      exact h.size
    · rw [hmap, List.map_append, List.map_singleton,
        firstOccurrenceNumber_append_of_mem _ _ _ hc, ← hsecond]
      show state.2 ++ [element.2] = _
      rw [h.output]
      congr 1
      apply List.map_congr_left
      intro c hmem
      exact (firstOccurrenceNumber_append_of_mem _ _ _ hmem).symm
  · -- the class is new: an element with the next number is appended
    have hnone : ∀ element ∈ state.1, cls element.1 ≠ cls key := by
      intro element hmem heq
      exact hc (heq ▸ List.mem_map_of_mem cls (h.known element hmem))
    have hfound : List.find? (fun element => decide (cls element.1 = cls key)) state.1 = none := by
      rw [List.find?_eq_none]
      intro element hmem hdec
      exact hnone element hmem (of_decide_eq_true hdec)
    have hstep : numberStep keyEqual state key =
        (state.1 ++ [(key, state.1.length)], state.2 ++ [state.1.length]) := by
      unfold numberStep UnorderedMap.insert
      simp only [find_eq_find_class cls keyEqual hkey, hfound]
    have hnew : valueOf cls (state.1 ++ [(key, state.1.length)]) (cls key) =
        some state.1.length := by
      rw [valueOf_append_of_none cls _ _ _ (valueOf_eq_none cls _ _ hnone)]
      simp [valueOf]
    have hnumber : firstOccurrenceNumber (keys.map cls ++ [cls key]) (cls key) =
        state.1.length := by
      rw [firstOccurrenceNumber_append_of_not_mem _ _ hc, h.size]
    rw [hstep]
    refine ⟨?_, ?_, ?_, ?_, ?_, ?_⟩
    · intro c hmem
      rw [hmap] at hmem ⊢
      rcases List.mem_append.mp hmem with h1 | h1
      · rw [firstOccurrenceNumber_append_of_mem _ _ _ h1]
        exact valueOf_append_of_some cls _ _ _ _ (h.found c h1)
      · rw [List.mem_singleton.mp h1, hnumber]
        exact hnew
    · intro e he
      rcases List.mem_append.mp he with h1 | h1
      · exact List.mem_append_left _ (h.known e h1)
      · rw [List.mem_singleton.mp h1]
        exact List.mem_append_right _ (List.mem_singleton.mpr rfl)
    · rw [hmap, dedup_length_append_of_not_mem _ _ hc, List.length_append, h.size]
      rfl
    · rw [hmap, List.map_append, List.map_singleton, hnumber]
      show state.2 ++ [state.1.length] = _
      rw [h.output]
      congr 1
      apply List.map_congr_left
      intro c hmem
      exact (firstOccurrenceNumber_append_of_mem _ _ _ hmem).symm
    · show List.map (fun element => element.2) (state.1 ++ [(key, state.1.length)]) = _
      rw [List.map_append, List.map_singleton, h.values, List.length_append,
        List.length_singleton, List.range_succ]
    · intro e he
      rcases List.mem_append.mp he with h1 | h1
      · exact valueOf_append_of_some cls _ _ _ _ (h.own e h1)
      · rw [List.mem_singleton.mp h1]
        exact hnew

/-- The state of a numbering loop is described after any number of rounds. -/
theorem Numbered.foldl {κ γ : Type} [DecidableEq γ] (cls : κ → γ) (keyEqual : κ → κ → Bool)
    (hkey : ∀ a b, keyEqual a b = decide (cls a = cls b)) (more : List κ) :
    ∀ (keys : List κ) (state : UnorderedMap κ × List Nat), Numbered cls keys state →
      Numbered cls (keys ++ more) (more.foldl (numberStep keyEqual) state) := by
  induction more with
  | nil =>
    intro keys state h
    rw [List.append_nil]
    exact h
  | cons key more ih =>
    intro keys state h
    have := ih (keys ++ [key]) _ (Numbered.step cls keyEqual hkey keys state key h)
    rw [List.append_assoc, List.singleton_append] at this
    exact this

/-- Before the first round the map and the output are empty. -/
theorem Numbered.start {κ γ : Type} [DecidableEq γ] (cls : κ → γ) :
    Numbered cls ([] : List κ) (([] : UnorderedMap κ), ([] : List Nat)) :=
  ⟨fun _ h => (by cases h), fun _ h => (by cases h), rfl, rfl, rfl, fun _ h => (by cases h)⟩

/-- The state of a numbering loop that starts with an empty map. -/
theorem Numbered.run {κ γ : Type} [DecidableEq γ] (cls : κ → γ) (keyEqual : κ → κ → Bool)
    (hkey : ∀ a b, keyEqual a b = decide (cls a = cls b)) (keys : List κ) :
    Numbered cls keys (keys.foldl (numberStep keyEqual) ([], [])) := by
  have := Numbered.foldl cls keyEqual hkey keys [] _ (Numbered.start cls)
  rw [List.nil_append] at this
  exact this

/-- A class met by a numbering loop has an element in the map, with a key of the class and
the number of the class as its value. -/
theorem Numbered.element_of_class {κ γ : Type} [DecidableEq γ] {cls : κ → γ}
    {keys : List κ} {state : UnorderedMap κ × List Nat} (h : Numbered cls keys state)
    (c : γ) (hc : c ∈ keys.map cls) :
    ∃ element ∈ state.1, cls element.1 = c ∧
      element.2 = firstOccurrenceNumber (keys.map cls) c := by
  have hvalue := h.found c hc
  unfold valueOf at hvalue
  obtain ⟨element, hfound, hsecond⟩ := Option.map_eq_some'.mp hvalue
  have hclass := List.find?_some hfound
  exact ⟨element, List.mem_of_find?_eq_some hfound, of_decide_eq_true hclass, hsecond⟩

/-- The value of an element of the map is the number of the class of its key. -/
theorem Numbered.value_of_element {κ γ : Type} [DecidableEq γ] {cls : κ → γ}
    {keys : List κ} {state : UnorderedMap κ × List Nat} (h : Numbered cls keys state)
    (element : κ × Nat) (hmem : element ∈ state.1) :
    element.2 = firstOccurrenceNumber (keys.map cls) (cls element.1) := by
  have h1 := h.own element hmem
  have h2 := h.found (cls element.1) (List.mem_map_of_mem cls (h.known element hmem))
  rw [h1] at h2
  exact Option.some.inj h2

/-- Two classes met by a numbering loop that have the same number are the same class. -/
theorem Numbered.number_injective {κ γ : Type} [DecidableEq γ] {cls : κ → γ}
    {keys : List κ} {state : UnorderedMap κ × List Nat} (h : Numbered cls keys state)
    (c c' : γ) (hc : c ∈ keys.map cls) (hc' : c' ∈ keys.map cls)
    (heq : firstOccurrenceNumber (keys.map cls) c =
      firstOccurrenceNumber (keys.map cls) c') : c = c' := by
  obtain ⟨e, he, hcls, hval⟩ := h.element_of_class c hc
  obtain ⟨e', he', hcls', hval'⟩ := h.element_of_class c' hc'
  have hnodup : (state.1.map (fun element => element.2)).Nodup := by
    rw [h.values]
    exact List.nodup_range _
  have hsame : e = e' :=
    List.inj_on_of_nodup_map hnodup he he' (by rw [hval, hval', heq])
  rw [← hcls, ← hcls', hsame]

/-- The numbers below the number of classes are the values of the elements of the map. -/
theorem Numbered.element_of_value {κ γ : Type} [DecidableEq γ] {cls : κ → γ}
    {keys : List κ} {state : UnorderedMap κ × List Nat} (h : Numbered cls keys state)
    (value : Nat) (hvalue : value < (keys.map cls).dedup.length) :
    ∃ element ∈ state.1, element.2 = value := by
  have hmem : value ∈ state.1.map (fun element => element.2) := by
    rw [h.values, h.size]
    exact List.mem_range.mpr hvalue
  obtain ⟨element, helement, hsecond⟩ := List.mem_map.mp hmem
  exact ⟨element, helement, hsecond⟩

/-- The loop of `mesh()` that numbers the index combinations is a numbering loop over the
positions. -/
theorem combineIndices_numbered (originalIndices : List Nat) (stride : Nat)
    (keyEqual : Nat → Nat → Bool)
    (hkey : ∀ a b, keyEqual a b =
      decide (tupleAt originalIndices stride a = tupleAt originalIndices stride b))
    (positions : Nat) :
    Numbered (tupleAt originalIndices stride) (List.range positions)
      (combineIndices keyEqual positions) :=
  Numbered.run (tupleAt originalIndices stride) keyEqual hkey (List.range positions)

/-- Entry `i` of the output of a numbering loop over the positions. -/
theorem numbered_output_get {γ : Type} [DecidableEq γ] {cls : Nat → γ} {positions : Nat}
    {state : UnorderedMap Nat × List Nat} (h : Numbered cls (List.range positions) state)
    (i : Nat) (hi : i < positions) :
    state.2.get? i =
      some (firstOccurrenceNumber ((List.range positions).map cls) (cls i)) := by
  rw [h.output, List.get?_eq_getElem?, List.getElem?_map, List.getElem?_map,
    List.getElem?_range hi]
  rfl

/-- C16: when `IndexEqual` compares the tuples of `stride` indices at two positions, the
combined indices of two positions are equal exactly when their tuples are equal; the
combined index of a position is the number of distinct tuples before the first occurrence
of its tuple; the map has one element per distinct tuple, and the combined indices are
exactly the numbers below the number of distinct tuples. -/
theorem combined_indices_number_tuples (originalIndices : List Nat) (stride : Nat)
    (keyEqual : Nat → Nat → Bool)
    (hkey : ∀ a b, keyEqual a b =
      decide (tupleAt originalIndices stride a = tupleAt originalIndices stride b))
    (positions : Nat) :
    (combineIndices keyEqual positions).2.length = positions ∧
    (∀ i j, i < positions → j < positions →
      ((combineIndices keyEqual positions).2.get? i =
          (combineIndices keyEqual positions).2.get? j ↔
        tupleAt originalIndices stride i = tupleAt originalIndices stride j)) ∧
    (∀ i, i < positions →
      (combineIndices keyEqual positions).2.get? i =
        some (firstOccurrenceNumber
          ((List.range positions).map (tupleAt originalIndices stride))
          (tupleAt originalIndices stride i))) ∧
    (combineIndices keyEqual positions).1.length =
      ((List.range positions).map (tupleAt originalIndices stride)).dedup.length ∧
    (∀ value,
      value < ((List.range positions).map (tupleAt originalIndices stride)).dedup.length ↔
        ∃ i, i < positions ∧ (combineIndices keyEqual positions).2.get? i = some value) := by
  have h := combineIndices_numbered originalIndices stride keyEqual hkey positions
  have hmem : ∀ i, i < positions → tupleAt originalIndices stride i ∈
      (List.range positions).map (tupleAt originalIndices stride) :=
    fun i hi => List.mem_map_of_mem _ (List.mem_range.mpr hi)
  refine ⟨?_, ?_, fun i hi => numbered_output_get h i hi, h.size, ?_⟩
  · rw [h.output, List.length_map, List.length_map, List.length_range]
  · intro i j hi hj
    rw [numbered_output_get h i hi, numbered_output_get h j hj]
    constructor
    · intro heq
      exact h.number_injective _ _ (hmem i hi) (hmem j hj) (Option.some.inj heq)
    · intro heq
      rw [heq]
  · intro value
    constructor
    · intro hvalue
      obtain ⟨element, helement, hsecond⟩ := h.element_of_value value hvalue
      have hi : element.1 < positions := List.mem_range.mp (h.known element helement)
      refine ⟨element.1, hi, ?_⟩
      rw [numbered_output_get h element.1 hi, ← h.value_of_element element helement, hsecond]
    · rintro ⟨i, hi, hget⟩
      rw [numbered_output_get h i hi] at hget
      obtain ⟨element, helement, _, hsecond⟩ := h.element_of_class _ (hmem i hi)
      have hin : element.2 ∈ (combineIndices keyEqual positions).1.map
          (fun element => element.2) := List.mem_map_of_mem _ helement
      rw [h.values, h.size, List.mem_range, hsecond, Option.some.inj hget] at hin
      exact hin

/-- C16, evaluated: with the single indices 0, 1, 0, 2, 0 and stride 1 the combined indices
are 0, 1, 0, 2, 0: positions 0, 2 and 4 hold the same tuple and get the same number, and
the three distinct tuples are numbered 0, 1, 2 in order of first occurrence. -/
theorem combined_indices_number_tuples_witness :
    (combineIndices (sampleIndexEqual [0, 1, 0, 2, 0] 1) 5).2 = [0, 1, 0, 2, 0] ∧
    (combineIndices (sampleIndexEqual [0, 1, 0, 2, 0] 1) 5).1.length =
      ((List.range 5).map (tupleAt [0, 1, 0, 2, 0] 1)).dedup.length :=
  ⟨by decide,
   (combined_indices_number_tuples [0, 1, 0, 2, 0] 1 (sampleIndexEqual [0, 1, 0, 2, 0] 1)
     (fun _ _ => rfl) 5).2.2.2.1⟩

/-- The loops of `open()` are numbering loops over the trimmed ids; only the map is kept. -/
theorem namesToIds_eq_foldl (trimmed : String → String) (tmpList : List String) :
    ∀ state : UnorderedMap String × List Nat,
      tmpList.foldl
        (fun map id =>
          (UnorderedMap.insert (fun a b => a == b) map (trimmed id, map.length)).1) state.1 =
      ((tmpList.map trimmed).foldl (numberStep (fun a b => a == b)) state).1 := by
  induction tmpList with
  | nil => intro state; rfl
  | cons id rest ih =>
    intro state
    rw [List.map_cons, List.foldl_cons, List.foldl_cons]
    exact ih (numberStep (fun a b => a == b) state (trimmed id))

/-- The map built by `open()` from a list of ids is described by the numbering of the
trimmed ids. -/
theorem namesToIds_numbered (trimmed : String → String) (tmpList : List String) :
    ∃ output, Numbered (fun name : String => name) (tmpList.map trimmed)
      (namesToIds trimmed tmpList, output) := by
  have h := Numbered.run (fun name : String => name) (fun a b => a == b)
    (fun _ _ => rfl) (tmpList.map trimmed)
  refine ⟨((tmpList.map trimmed).foldl (numberStep (fun a b => a == b)) ([], [])).2, ?_⟩
  have hmap : namesToIds trimmed tmpList =
      ((tmpList.map trimmed).foldl (numberStep (fun a b => a == b)) ([], [])).1 :=
    namesToIds_eq_foldl trimmed tmpList ([], [])
  rw [hmap]
  exact h

/-- The lookup by name returns the value the map holds for the name. -/
theorem meshForName_of_valueOf (map : UnorderedMap String) (name : String) (value : Nat)
    (h : valueOf (fun name : String => name) map name = some value) :
    meshForName map name = (value : Int) := by
  unfold valueOf at h
  obtain ⟨element, hfound, hsecond⟩ := Option.map_eq_some'.mp h
  have hfind : UnorderedMap.find (fun a b => a == b) map name = some element := by
    rw [find_eq_find_class (fun name : String => name) (fun a b => a == b) (fun _ _ => rfl)]
    exact hfound
  unfold meshForName
  rw [hfind, ← hsecond]

/-- In a list without duplicates the number of an entry is its position. -/
theorem firstOccurrenceNumber_of_nodup {γ : Type} [DecidableEq γ] (values : List γ)
    (hnodup : values.Nodup) (i : Nat) (hi : i < values.length) :
    firstOccurrenceNumber values (values.get ⟨i, hi⟩) = i := by
  unfold firstOccurrenceNumber
  rw [List.get_eq_getElem, List.indexOf_getElem hnodup i hi,
    (hnodup.sublist (List.take_sublist i values)).dedup, List.length_take]
  exact Nat.min_eq_left (Nat.le_of_lt hi)

/-- C18: the map that `open()` builds from the ids returned by a query maps every trimmed
id to the number of distinct trimmed ids before its first occurrence, and its values are
exactly the numbers below the number of distinct trimmed ids; a name that is no trimmed id
is not found; when the trimmed ids are pairwise distinct, id `i` is mapped to `i`, and the
query position `i + 1` used by `mesh()`, `material()` and `image2D()` selects id `i`. -/
theorem names_to_ids (trimmed : String → String) (tmpList : List String) :
    (∀ name ∈ tmpList.map trimmed,
      meshForName (namesToIds trimmed tmpList) name =
        (firstOccurrenceNumber (tmpList.map trimmed) name : Nat)) ∧
    (namesToIds trimmed tmpList).map (fun element => element.2) =
      List.range (tmpList.map trimmed).dedup.length ∧
    (∀ name, name ∉ tmpList.map trimmed →
      meshForName (namesToIds trimmed tmpList) name = -1) ∧
    ((tmpList.map trimmed).Nodup → ∀ i (h : i < tmpList.length),
      meshForName (namesToIds trimmed tmpList) (trimmed (tmpList.get ⟨i, h⟩)) = (i : Nat) ∧
      nodeAt tmpList (queryPosition i) = some (tmpList.get ⟨i, h⟩)) := by
  obtain ⟨output, hnum⟩ := namesToIds_numbered trimmed tmpList
  have hfound : ∀ name ∈ tmpList.map trimmed,
      meshForName (namesToIds trimmed tmpList) name =
        (firstOccurrenceNumber (tmpList.map trimmed) name : Nat) := by
    intro name hname
    have h := hnum.found name (by rw [List.map_id']; exact hname)
    rw [List.map_id'] at h
    exact meshForName_of_valueOf _ _ _ h
  refine ⟨hfound, ?_, ?_, ?_⟩
  · have h := hnum.values
    rw [hnum.size, List.map_id'] at h
    exact h
  · intro name hname
    have hnone : UnorderedMap.find (fun a b => a == b) (namesToIds trimmed tmpList) name =
        none := by
      unfold UnorderedMap.find
      rw [List.find?_eq_none]
      intro element helement heq
      exact hname ((beq_iff_eq.mp heq) ▸ hnum.known element helement)
    unfold meshForName
    rw [hnone]
  · intro hnodup i h
    have hlen : i < (tmpList.map trimmed).length := by rw [List.length_map]; exact h
    have hget : (tmpList.map trimmed).get ⟨i, hlen⟩ = trimmed (tmpList.get ⟨i, h⟩) := by
      simp
    constructor
    · rw [← hget, hfound _ (List.get_mem _ i hlen),
        firstOccurrenceNumber_of_nodup _ hnodup i hlen]
    · unfold nodeAt queryPosition
      rw [if_neg (Nat.succ_ne_zero i), Nat.add_sub_cancel, List.get?_eq_get h]

/-- C18, evaluated: the ids "a", " b", "c", distinct once trimmed, are mapped to 0, 1, 2, and
the query position 2 selects the second of them. -/
theorem names_to_ids_witness :
    (["a", " b", "c"].map trimSpaces).Nodup ∧
    meshForName (namesToIds trimSpaces ["a", " b", "c"]) (trimSpaces " b") = 1 ∧
    nodeAt ["a", " b", "c"] (queryPosition 1) = some " b" :=
  ⟨by decide,
   (names_to_ids trimSpaces ["a", " b", "c"]).2.2.2 (by decide) 1 (by decide)⟩

/-- The loop "Build vertex array", for elements with pairwise distinct values that lie in
the vertex array and whose reads succeed: every element is written at its value, the other
entries are left as they were. -/
theorem assignVertices_spec {Vector3 Vector4 : Type} (toVector4 : Vector3 → Vector4)
    (originalIndices : List Nat) (originalVertices : List Vector3)
    (stride vertexOffset : Nat) :
    ∀ (order : List (Nat × Nat)) (vertices : List Vector4),
      (order.map (fun i => i.2)).Nodup →
      (∀ i ∈ order, i.2 < vertices.length) →
      (∀ i ∈ order, ∃ position,
        originalVertex originalIndices originalVertices stride vertexOffset i.1 =
          some position) →
      ∃ built, assignVertices toVector4 originalIndices originalVertices stride vertexOffset
          order vertices = some built ∧
        built.length = vertices.length ∧
        (∀ i ∈ order, ∀ position,
          originalVertex originalIndices originalVertices stride vertexOffset i.1 =
            some position → built.get? i.2 = some (toVector4 position)) ∧
        (∀ j, j ∉ order.map (fun i => i.2) → built.get? j = vertices.get? j) := by
  intro order
  induction order with
  | nil =>
    intro vertices _ _ _
    exact ⟨vertices, rfl, rfl, fun _ h => (by cases h), fun _ _ => rfl⟩
  | cons first rest ih =>
    intro vertices hnodup hbound hread
    obtain ⟨position, hposition⟩ := hread first (List.mem_cons_self _ _)
    have hfirst : first.2 < vertices.length := hbound first (List.mem_cons_self _ _)
    rw [List.map_cons, List.nodup_cons] at hnodup
    obtain ⟨built, hbuilt, hlength, hwritten, hkept⟩ :=
      ih (vertices.set first.2 (toVector4 position)) hnodup.2
        (fun i hi => by
          rw [List.length_set]
          exact hbound i (List.mem_cons_of_mem _ hi))
        (fun i hi => hread i (List.mem_cons_of_mem _ hi))
    refine ⟨built, ?_, ?_, ?_, ?_⟩
    · rw [assignVertices, hposition]
      simp only [hfirst, if_true]
      exact hbuilt
    · rw [hlength, List.length_set]
    · intro i hi value hvalue
      rcases List.mem_cons.mp hi with e | e
      · subst e
        rw [hposition] at hvalue
        rw [hkept i.2 hnodup.1, List.get?_eq_getElem?, List.getElem?_set_self hfirst,
          Option.some.inj hvalue]
      · exact hwritten i e value hvalue
    · intro j hj
      rw [List.map_cons, List.mem_cons, not_or] at hj
      rw [hkept j hj.2, List.get?_eq_getElem?, List.get?_eq_getElem?,
        List.getElem?_set_ne (Ne.symm hj.1)]

/-- Below the number of positions, and for an offset below the stride, the index read at
`position*stride + offset` is the entry `offset` of the tuple at the position, and exists. -/
theorem get_eq_tupleAt_get (originalIndices : List Nat) (stride offset position : Nat)
    (hoffset : offset < stride) (hposition : position < originalIndices.length / stride) :
    originalIndices.get? (position * stride + offset) =
        (tupleAt originalIndices stride position).get? offset ∧
    position * stride + offset < originalIndices.length := by
  constructor
  · unfold tupleAt
    rw [List.get?_eq_getElem?, List.get?_eq_getElem?, List.getElem?_take_of_lt hoffset,
      List.getElem?_drop]
  · have hpos : 0 < stride := Nat.lt_of_le_of_lt (Nat.zero_le _) hoffset
    have h1 : (position + 1) * stride ≤ originalIndices.length :=
      (Nat.le_div_iff_mul_le hpos).mp hposition
    rw [Nat.add_mul, Nat.one_mul] at h1
    omega

/-- C17, as stated, fails when the offset of the positions is not below the stride: with
stride 1, offset 1, the indices 0, 1, 0, 2, 0 and the positions 100, 101, 102, the combined
index of position 2 is 0 and the vertex array holds 101 there, while the original position
`originalVertices[originalIndices[2*1 + 1]]` is 102. -/
theorem vertex_offset_beyond_stride :
    (combineIndices (sampleIndexEqual [0, 1, 0, 2, 0] 1) ([0, 1, 0, 2, 0].length / 1)).2.get? 2 =
      some 0 ∧
    buildVertices 0 (fun position : Nat => position) [0, 1, 0, 2, 0] [100, 101, 102] 1 1
      (combineIndices (sampleIndexEqual [0, 1, 0, 2, 0] 1) ([0, 1, 0, 2, 0].length / 1)).1
      (combineIndices (sampleIndexEqual [0, 1, 0, 2, 0] 1) ([0, 1, 0, 2, 0].length / 1)).1 =
      some [101, 100, 100] ∧
    [101, 100, 100].get? 0 = some 101 ∧
    originalVertex [0, 1, 0, 2, 0] [100, 101, 102] 1 1 2 = some 102 ∧
    [101, 100, 100].get? 0 ≠ originalVertex [0, 1, 0, 2, 0] [100, 101, 102] 1 1 2 := by
  decide

/-- C17, amended: when the offset of the positions is below the stride and the index that
every position holds at this offset designates an original vertex, the vertex array is
built, whatever the order in which the map is iterated; it has as many entries as there are distinct index tuples, every entry is
the value of an element of the map and so is assigned, and for every position `i` of the
polylist the entry at its combined index is the original position
`originalVertices[originalIndices[i*stride + vertexOffset]]`, converted to `Vector4`. -/
theorem vertices_reproduce_positions {Vector3 Vector4 : Type} (zero : Vector4)
    (toVector4 : Vector3 → Vector4) (originalIndices : List Nat)
    (originalVertices : List Vector3) (stride vertexOffset : Nat)
    (keyEqual : Nat → Nat → Bool)
    (hkey : ∀ a b, keyEqual a b =
      decide (tupleAt originalIndices stride a = tupleAt originalIndices stride b))
    (hoffset : vertexOffset < stride)
    (hrange : ∀ i index, i < originalIndices.length / stride →
      originalIndices.get? (i * stride + vertexOffset) = some index →
      index < originalVertices.length)
    (iteration : UnorderedMap Nat)
    (hiteration : iteration.Perm
      (combineIndices keyEqual (originalIndices.length / stride)).1) :
    ∃ vertices,
      buildVertices zero toVector4 originalIndices originalVertices stride vertexOffset
        (combineIndices keyEqual (originalIndices.length / stride)).1 iteration =
        some vertices ∧
      vertices.length =
        ((List.range (originalIndices.length / stride)).map
          (tupleAt originalIndices stride)).dedup.length ∧
      (∀ j, j < vertices.length →
        ∃ i ∈ (combineIndices keyEqual (originalIndices.length / stride)).1, i.2 = j) ∧
      (∀ i, i < originalIndices.length / stride →
        ∃ combined index position,
          (combineIndices keyEqual (originalIndices.length / stride)).2.get? i =
            some combined ∧
          originalIndices.get? (i * stride + vertexOffset) = some index ∧
          originalVertices.get? index = some position ∧
          vertices.get? combined = some (toVector4 position)) := by
  have h := combineIndices_numbered originalIndices stride keyEqual hkey
    (originalIndices.length / stride)
  -- the reads of a position below the number of positions succeed
  have hread : ∀ p, p < originalIndices.length / stride →
      ∃ index position, originalIndices.get? (p * stride + vertexOffset) = some index ∧
        originalVertices.get? index = some position ∧
        originalVertex originalIndices originalVertices stride vertexOffset p =
          some position := by
    intro p hp
    have hlt := (get_eq_tupleAt_get originalIndices stride vertexOffset p hoffset hp).2
    have hindex : originalIndices.get? (p * stride + vertexOffset) =
        some (originalIndices.get ⟨p * stride + vertexOffset, hlt⟩) := List.get?_eq_get hlt
    have hvertex := hrange p _ hp hindex
    refine ⟨_, _, hindex, List.get?_eq_get hvertex, ?_⟩
    unfold originalVertex
    rw [hindex]
    exact List.get?_eq_get hvertex
  -- positions with the same tuple read the same original vertex
  have hsame : ∀ p q, p < originalIndices.length / stride →
      q < originalIndices.length / stride →
      tupleAt originalIndices stride p = tupleAt originalIndices stride q →
      originalVertex originalIndices originalVertices stride vertexOffset p =
        originalVertex originalIndices originalVertices stride vertexOffset q := by
    intro p q hp hq heq
    unfold originalVertex
    rw [(get_eq_tupleAt_get originalIndices stride vertexOffset p hoffset hp).1,
      (get_eq_tupleAt_get originalIndices stride vertexOffset q hoffset hq).1, heq]
  have hnodup : (iteration.map (fun i => i.2)).Nodup := by
    rw [(hiteration.map (fun i => i.2)).nodup_iff, h.values]
    exact List.nodup_range _
  have hbound : ∀ i ∈ iteration, i.2 <
      (List.replicate (combineIndices keyEqual (originalIndices.length / stride)).1.length
        zero).length := by
    intro i hi
    have hin : i.2 ∈ (combineIndices keyEqual (originalIndices.length / stride)).1.map
        (fun i => i.2) := List.mem_map_of_mem _ (hiteration.mem_iff.mp hi)
    rw [h.values, List.mem_range] at hin
    rw [List.length_replicate]
    exact hin
  obtain ⟨vertices, hbuilt, hlength, hwritten, _⟩ :=
    assignVertices_spec toVector4 originalIndices originalVertices stride vertexOffset
      iteration _ hnodup hbound
      (fun i hi => by
        obtain ⟨_, position, _, _, hp⟩ :=
          hread i.1 (List.mem_range.mp (h.known i (hiteration.mem_iff.mp hi)))
        exact ⟨position, hp⟩)
  rw [List.length_replicate] at hlength
  refine ⟨vertices, hbuilt, ?_, ?_, ?_⟩
  · rw [hlength, h.size]
  · intro j hj
    rw [hlength, h.size] at hj
    exact h.element_of_value j hj
  · intro i hi
    obtain ⟨index, position, hindex, hposition, hvertex⟩ := hread i hi
    obtain ⟨element, helement, hclass, hvalue⟩ :=
      h.element_of_class (tupleAt originalIndices stride i)
        (List.mem_map_of_mem _ (List.mem_range.mpr hi))
    have hfirst : element.1 < originalIndices.length / stride :=
      List.mem_range.mp (h.known element helement)
    refine ⟨element.2, index, position, ?_, hindex, hposition, ?_⟩
    · rw [numbered_output_get h i hi, hvalue]
    · apply hwritten element (hiteration.mem_iff.mpr helement) position
      rw [hsame element.1 i hfirst hi hclass]
      exact hvertex

/-- C17, amended, evaluated: with two inputs per position, the position at offset 0 and
the index pairs (0,7), (1,7), (0,7), where only the indices at offset 0 designate one of the
two original vertices, the vertex array is 100, 101, and position 2 finds its original
position 100 at its combined index 0. -/
theorem vertices_reproduce_positions_witness :
    (0 : Nat) < 2 ∧
    (∀ i index, i < [0, 7, 1, 7, 0, 7].length / 2 →
      [0, 7, 1, 7, 0, 7].get? (i * 2 + 0) = some index → index < [100, 101].length) ∧
    buildVertices 0 (fun position : Nat => position) [0, 7, 1, 7, 0, 7] [100, 101] 2 0
      (combineIndices (sampleIndexEqual [0, 7, 1, 7, 0, 7] 2)
        ([0, 7, 1, 7, 0, 7].length / 2)).1
      (combineIndices (sampleIndexEqual [0, 7, 1, 7, 0, 7] 2)
        ([0, 7, 1, 7, 0, 7].length / 2)).1 = some [100, 101] ∧
    ∃ vertices,
      buildVertices 0 (fun position : Nat => position) [0, 7, 1, 7, 0, 7] [100, 101] 2 0
        (combineIndices (sampleIndexEqual [0, 7, 1, 7, 0, 7] 2)
          ([0, 7, 1, 7, 0, 7].length / 2)).1
        (combineIndices (sampleIndexEqual [0, 7, 1, 7, 0, 7] 2)
          ([0, 7, 1, 7, 0, 7].length / 2)).1 = some vertices ∧
      vertices.length =
        ((List.range ([0, 7, 1, 7, 0, 7].length / 2)).map
          (tupleAt [0, 7, 1, 7, 0, 7] 2)).dedup.length ∧
      (∀ j, j < vertices.length →
        ∃ i ∈ (combineIndices (sampleIndexEqual [0, 7, 1, 7, 0, 7] 2)
          ([0, 7, 1, 7, 0, 7].length / 2)).1, i.2 = j) ∧
      (∀ i, i < [0, 7, 1, 7, 0, 7].length / 2 →
        ∃ combined index position,
          (combineIndices (sampleIndexEqual [0, 7, 1, 7, 0, 7] 2)
            ([0, 7, 1, 7, 0, 7].length / 2)).2.get? i = some combined ∧
          [0, 7, 1, 7, 0, 7].get? (i * 2 + 0) = some index ∧
          [100, 101].get? index = some position ∧
          vertices.get? combined = some position) := by
  have hslot : ∀ i index, i < [0, 7, 1, 7, 0, 7].length / 2 →
      [0, 7, 1, 7, 0, 7].get? (i * 2 + 0) = some index → index < [100, 101].length := by
    intro i index hi hget
    have hi3 : i < 3 := hi
    interval_cases i <;> simp at hget <;> subst hget <;> decide
  exact ⟨by decide, hslot, by decide,
    vertices_reproduce_positions 0 (fun position : Nat => position) [0, 7, 1, 7, 0, 7]
      [100, 101] 2 0 (sampleIndexEqual [0, 7, 1, 7, 0, 7] 2)
      (fun _ _ => rfl) (by decide) hslot _ (List.Perm.refl _)⟩

/-- The sum of face counts that are all 3 or 4. -/
theorem sum_of_triangles_and_quads (faces : List Nat) (h : ∀ c ∈ faces, c = 3 ∨ c = 4) :
    faces.sum = 3 * faces.count 3 + 4 * faces.count 4 := by
  induction faces with
  | nil => rfl
  | cons c rest ih =>
    have hrest := ih (fun x hx => h x (List.mem_cons_of_mem _ hx))
    rcases h c (List.mem_cons_self _ _) with e | e
    · subst e
      rw [List.sum_cons, List.count_cons_self, List.count_cons_of_ne (by decide), hrest]
      omega
    · subst e
      rw [List.sum_cons, List.count_cons_self, List.count_cons_of_ne (by decide), hrest]
      omega

/-- The first loop of `mesh()` on faces that all have 3 or 4 vertices: it does not fail, the
vertex total is the sum of the counts modulo 2^32, and the quads are the faces of count 4. -/
theorem countVertices_ok :
    ∀ (faces : List Nat), (∀ c ∈ faces, c = 3 ∨ c = 4) →
      ∀ (i vertexCount : Nat) (quads : List Nat), vertexCount < GLuintRange →
        countVertices faces i vertexCount quads =
          .ok ((vertexCount + faces.sum) % GLuintRange, quads ++ quadPositions faces i) := by
  intro faces
  induction faces with
  | nil =>
    intro _ i vertexCount quads hlt
    rw [countVertices, quadPositions, List.sum_nil, Nat.add_zero, Nat.mod_eq_of_lt hlt,
      List.append_nil]
  | cons c rest ih =>
    intro h i vertexCount quads hlt
    have hrest := ih (fun x hx => h x (List.mem_cons_of_mem _ hx))
    have hmod : ∀ n, n % GLuintRange < GLuintRange :=
      fun n => Nat.mod_lt n (by decide)
    rcases h c (List.mem_cons_self _ _) with e | e
    · subst e
      rw [countVertices, if_neg (by decide), if_neg (by decide),
        hrest (i + 1) _ quads (hmod _), quadPositions, if_neg (by decide), List.sum_cons,
        Nat.mod_add_mod, Nat.add_assoc]
    · subst e
      rw [countVertices, if_pos rfl, hrest (i + 1) _ (quads ++ [i]) (hmod _), quadPositions,
        if_pos rfl, List.sum_cons, Nat.mod_add_mod, Nat.add_assoc, List.append_assoc,
        List.singleton_append]

/-- The first loop of `mesh()` stops at the first face that has neither 3 nor 4 vertices,
whatever follows it. -/
theorem countVertices_error :
    ∀ (before : List Nat), (∀ c ∈ before, c = 3 ∨ c = 4) →
      ∀ (bad : Nat) (after : List Nat) (i vertexCount : Nat) (quads : List Nat),
        bad ≠ 3 → bad ≠ 4 →
        countVertices (before ++ bad :: after) i vertexCount quads = .error bad := by
  intro before
  induction before with
  | nil =>
    intro _ bad after i vertexCount quads h3 h4
    rw [List.nil_append, countVertices, if_neg h4, if_pos h3]
  | cons c rest ih =>
    intro h bad after i vertexCount quads h3 h4
    have hrest := ih (fun x hx => h x (List.mem_cons_of_mem _ hx))
    rcases h c (List.mem_cons_self _ _) with e | e
    · subst e
      rw [List.cons_append, countVertices, if_neg (by decide), if_neg (by decide)]
      exact hrest bad after _ _ _ h3 h4
    · subst e
      rw [List.cons_append, countVertices, if_pos rfl]
      exact hrest bad after _ _ _ h3 h4

/-- The sum of the counts of faces that all have 4 vertices. -/
theorem sum_replicate_four (n : Nat) : (List.replicate n 4).sum = 4 * n := by
  induction n with
  | zero => rfl
  | succ n ih =>
    rw [List.replicate_succ, List.sum_cons, ih]
    omega

/-- C14, as stated, fails for the vertex total: for 2^30 faces of 4 vertices the check does
not fail and the total kept in the `GLuint` is 0, while four times the number of quads is
2^32. -/
theorem vertex_total_wraps :
    (∀ c ∈ List.replicate 1073741824 4, c = 3 ∨ c = 4) ∧
    (∃ quads, countVertices (List.replicate 1073741824 4) 0 0 [] = .ok (0, quads)) ∧
    3 * (List.replicate 1073741824 4).count 3 + 4 * (List.replicate 1073741824 4).count 4 =
      4294967296 := by
  have hall : ∀ c ∈ List.replicate 1073741824 4, c = 3 ∨ c = 4 :=
    fun _ hc => Or.inr (List.eq_of_mem_replicate hc)
  have hmod : (0 + 4 * 1073741824) % GLuintRange = 0 := rfl
  have hsum : (0 + (List.replicate 1073741824 4).sum) % GLuintRange = 0 := by
    rw [sum_replicate_four]
    exact hmod
  refine ⟨hall, ⟨[] ++ quadPositions (List.replicate 1073741824 4) 0, ?_⟩, ?_⟩
  · rw [countVertices_ok _ hall 0 0 [] (by decide), hsum]
  · rw [List.count_replicate, List.count_replicate]
    norm_num

/-- When the first loop fails, `mesh()` returns `nullptr` for a valid id whose slot is
empty, and the document is as before. -/
theorem mesh_of_error {Vector3 Vector4 : Type} (zero : Vector4)
    (toVector4 : Vector3 → Vector4) (IndexEqual : List Nat → Nat → Nat → Nat → Bool)
    (queries : Nat → MeshQueries Vector3) (document : Document Vector4) (id : Nat)
    (hid : id < document.meshes.length) (hslot : document.meshes.get? id = some none)
    (count : Nat)
    (herror : countVertices (queries id).vertexCountPerFace 0 0 [] = .error count) :
    mesh zero toVector4 IndexEqual queries (some document) id =
      .value (none, some document) := by
  unfold mesh
  simp only [ge_iff_le, Nat.not_le.mpr hid, if_false, hslot, herror]

/-- C14, amended: for a valid id whose cache slot is empty, when a face has neither 3 nor
4 vertices and the faces before it have 3 or 4, the first loop stops at that face whatever
follows it, `mesh()` returns `nullptr`, and the document, with its empty cache slot, is as
before; when every face has 3 or 4 vertices the check does not fail and the vertex total,
kept in a `GLuint`, is 3 times the number of triangles plus 4 times the number of quads
modulo 2^32, so it is that number whenever the number is below 2^32. -/
theorem mesh_rejects_unsupported_faces {Vector3 Vector4 : Type} (zero : Vector4)
    (toVector4 : Vector3 → Vector4) (IndexEqual : List Nat → Nat → Nat → Nat → Bool)
    (queries : Nat → MeshQueries Vector3) (document : Document Vector4) (id : Nat)
    (hid : id < document.meshes.length) (hslot : document.meshes.get? id = some none) :
    (∀ before bad after, (∀ c ∈ before, c = 3 ∨ c = 4) → bad ≠ 3 → bad ≠ 4 →
      (queries id).vertexCountPerFace = before ++ bad :: after →
      countVertices (queries id).vertexCountPerFace 0 0 [] = .error bad ∧
      mesh zero toVector4 IndexEqual queries (some document) id =
        .value (none, some document) ∧
      document.meshes.get? id = some none) ∧
    ((∀ c ∈ (queries id).vertexCountPerFace, c = 3 ∨ c = 4) →
      ∃ quads,
        countVertices (queries id).vertexCountPerFace 0 0 [] =
          .ok ((3 * (queries id).vertexCountPerFace.count 3 +
            4 * (queries id).vertexCountPerFace.count 4) % GLuintRange, quads) ∧
        (3 * (queries id).vertexCountPerFace.count 3 +
            4 * (queries id).vertexCountPerFace.count 4 < GLuintRange →
          countVertices (queries id).vertexCountPerFace 0 0 [] =
            .ok (3 * (queries id).vertexCountPerFace.count 3 +
              4 * (queries id).vertexCountPerFace.count 4, quads))) := by
  constructor
  · intro before bad after hbefore h3 h4 hfaces
    have herror : countVertices (queries id).vertexCountPerFace 0 0 [] = .error bad := by
      rw [hfaces]
      exact countVertices_error before hbefore bad after 0 0 [] h3 h4
    exact ⟨herror,
      mesh_of_error zero toVector4 IndexEqual queries document id hid hslot bad herror, hslot⟩
  · intro hall
    have hok := countVertices_ok _ hall 0 0 [] (by decide)
    rw [Nat.zero_add, sum_of_triangles_and_quads _ hall] at hok
    refine ⟨_, hok, ?_⟩
    intro hlt
    rw [hok, Nat.mod_eq_of_lt hlt]

/-- C14, amended, evaluated: the faces 3, 4, 5, 3 make `mesh()` return `nullptr` at the
face of 5 vertices and leave the document; the faces 3, 4, 3 give the vertex total 10. -/
theorem mesh_rejects_unsupported_faces_witness :
    mesh (0 : Nat) (fun position : Nat => position) sampleIndexEqual
        (fun _ => ⟨"mesh", [3, 4, 5, 3], 1, fun _ => [], [], 0⟩) (some ⟨[none]⟩) 0 =
      .value (none, some ⟨[none]⟩) ∧
    (∃ quads, countVertices [3, 4, 3] 0 0 [] = .ok (10, quads)) :=
  ⟨((mesh_rejects_unsupported_faces (0 : Nat) (fun position : Nat => position)
      sampleIndexEqual (fun _ => ⟨"mesh", [3, 4, 5, 3], 1, fun _ => [], [], 0⟩) ⟨[none]⟩ 0
      (by decide) rfl).1 [3, 4] 5 [3] (by decide) (by decide) (by decide) rfl).2.1,
   by
    obtain ⟨quads, _, h⟩ :=
      (mesh_rejects_unsupported_faces (0 : Nat) (fun position : Nat => position)
        sampleIndexEqual (fun _ => ⟨"mesh", [3, 4, 3], 1, fun _ => [], [], 0⟩) ⟨[none]⟩ 0
        (by decide) rfl).2 (by decide)
    exact ⟨quads, h (by decide)⟩⟩

/-- The positions of the quads among the faces from face `i` on are not below `i`. -/
theorem quadPositions_ge :
    ∀ (faces : List Nat) (i x : Nat), x ∈ quadPositions faces i → i ≤ x := by
  intro faces
  induction faces with
  | nil => intro i x h; cases h
  | cons c rest ih =>
    intro i x h
    rw [quadPositions] at h
    by_cases hc : c = 4
    · rw [if_pos hc] at h
      rcases List.mem_cons.mp h with e | e
      · exact Nat.le_of_eq e.symm
      · exact Nat.le_of_succ_le (ih (i + 1) x e)
    · rw [if_neg hc] at h
      exact Nat.le_of_succ_le (ih (i + 1) x h)

/-- The quads are the faces of count 4. -/
theorem mem_quadPositions :
    ∀ (faces : List Nat) (i x : Nat),
      x ∈ quadPositions faces i ↔ i ≤ x ∧ faces.get? (x - i) = some 4 := by
  intro faces
  induction faces with
  | nil =>
    intro i x
    constructor
    · intro h; cases h
    · rintro ⟨_, h⟩; cases h
  | cons c rest ih =>
    intro i x
    have hstep : i + 1 ≤ x → (c :: rest).get? (x - i) = rest.get? (x - (i + 1)) := by
      intro hx
      have hsub : x - i = (x - (i + 1)) + 1 := by omega
      rw [hsub, List.get?_cons_succ]
    rw [quadPositions]
    by_cases hc : c = 4
    · rw [if_pos hc, List.mem_cons, ih (i + 1) x]
      constructor
      · rintro (e | ⟨hx, hget⟩)
        · subst e
          rw [Nat.sub_self, hc]
          exact ⟨Nat.le_refl _, rfl⟩
        · exact ⟨Nat.le_of_succ_le hx, (hstep hx).trans hget⟩
      · rintro ⟨hx, hget⟩
        rcases Nat.eq_or_lt_of_le hx with e | hlt
        · exact Or.inl e.symm
        · exact Or.inr ⟨hlt, (hstep hlt).symm.trans hget⟩
    · rw [if_neg hc, ih (i + 1) x]
      constructor
      · rintro ⟨hx, hget⟩
        exact ⟨Nat.le_of_succ_le hx, (hstep hx).trans hget⟩
      · rintro ⟨hx, hget⟩
        rcases Nat.eq_or_lt_of_le hx with e | hlt
        · subst e
          rw [Nat.sub_self] at hget
          exact absurd (Option.some.inj hget) hc
        · exact ⟨hlt, (hstep hlt).symm.trans hget⟩

/-- A read inside a list gives the entry. -/
theorem get?_eq_some_getD (v : List Nat) (k : Nat) (h : k < v.length) :
    v.get? k = some (v.getD k 0) := by
  rw [List.getD_eq_getElem?_getD, List.get?_eq_getElem?, List.getElem?_eq_getElem h]
  rfl

/-- The length of the expected index list: 3 per triangle and 6 per quad. -/
theorem length_expectedIndices (v : List Nat) :
    ∀ (faces : List Nat) (start : Nat), (∀ c ∈ faces, c = 3 ∨ c = 4) →
      (expectedIndices v faces start).length = 3 * faces.count 3 + 6 * faces.count 4 := by
  intro faces
  induction faces with
  | nil => intro _ _; rfl
  | cons c rest ih =>
    intro start h
    have hrest := ih (start + c) (fun x hx => h x (List.mem_cons_of_mem _ hx))
    rcases h c (List.mem_cons_self _ _) with e | e
    · subst e
      rw [expectedIndices, if_neg (by decide), List.length_append, hrest,
        List.count_cons_self, List.count_cons_of_ne (by decide)]
      simp only [List.length_cons, List.length_nil]
      omega
    · subst e
      rw [expectedIndices, if_pos rfl, List.length_append, hrest,
        List.count_cons_self, List.count_cons_of_ne (by decide)]
      simp only [List.length_cons, List.length_nil]
      omega

/-- The loop "Convert quads to triangles" from face `i` on, when `quadId` quads lie before
face `i`, the remaining quads are the remaining faces of count 4, and the combined indices
reach to the end of the faces: the expected indices are appended. -/
theorem triangulate_spec (v : List Nat) :
    ∀ (rest : List Nat), (∀ c ∈ rest, c = 3 ∨ c = 4) →
      ∀ (i quadId : Nat) (before indices : List Nat), before.length = quadId →
        i * 3 + quadId + rest.sum ≤ v.length →
        triangulate v (before ++ quadPositions rest i) rest.length i quadId indices =
          some (indices ++ expectedIndices v rest (i * 3 + quadId)) := by
  intro rest
  induction rest with
  | nil =>
    intro _ i quadId before indices _ _
    rw [List.length_nil, triangulate, expectedIndices, List.append_nil]
  | cons c rest ih =>
    intro h i quadId before indices hbefore hlen
    have hrest := ih (fun x hx => h x (List.mem_cons_of_mem _ hx))
    rw [List.sum_cons] at hlen
    rcases h c (List.mem_cons_self _ _) with e | e
    · -- a triangle: the next quad, if any, lies after face `i`
      subst e
      have hcond : ¬ ((before ++ quadPositions rest (i + 1)).length > quadId ∧
          (before ++ quadPositions rest (i + 1)).get? quadId = some i) := by
        rintro ⟨_, hget⟩
        rw [List.get?_eq_getElem?, List.getElem?_append_right (Nat.le_of_eq hbefore)] at hget
        have hmem : i ∈ quadPositions rest (i + 1) := List.getElem?_mem hget
        exact absurd (quadPositions_ge rest (i + 1) i hmem) (Nat.not_succ_le_self i)
      have h0 := get?_eq_some_getD v (i * 3 + quadId) (by omega)
      have h1 := get?_eq_some_getD v (i * 3 + quadId + 1) (by omega)
      have h2 := get?_eq_some_getD v (i * 3 + quadId + 2) (by omega)
      have hstart : (i + 1) * 3 + quadId = i * 3 + quadId + 3 := by omega
      rw [quadPositions, if_neg (by decide), List.length_cons, triangulate, if_neg hcond]
      simp only [h0, h1, h2]
      rw [hrest (i + 1) quadId before _ hbefore (by omega), expectedIndices,
        if_neg (by decide), hstart, List.append_assoc]
    · -- a quad: it is the next entry of the list of quads
      subst e
      have hcond : (before ++ i :: quadPositions rest (i + 1)).length > quadId ∧
          (before ++ i :: quadPositions rest (i + 1)).get? quadId = some i := by
        constructor
        · rw [List.length_append, List.length_cons]
          omega
        · rw [List.get?_eq_getElem?, List.getElem?_append_right (Nat.le_of_eq hbefore),
            hbefore, Nat.sub_self, List.getElem?_cons_zero]
      have h0 := get?_eq_some_getD v (i * 3 + quadId) (by omega)
      have h1 := get?_eq_some_getD v (i * 3 + quadId + 1) (by omega)
      have h2 := get?_eq_some_getD v (i * 3 + quadId + 2) (by omega)
      have h3 := get?_eq_some_getD v (i * 3 + quadId + 3) (by omega)
      have hstart : (i + 1) * 3 + (quadId + 1) = i * 3 + quadId + 4 := by omega
      have hquads : before ++ i :: quadPositions rest (i + 1) =
          (before ++ [i]) ++ quadPositions rest (i + 1) := by
        rw [List.append_assoc, List.singleton_append]
      rw [quadPositions, if_pos rfl, List.length_cons, triangulate, if_pos hcond]
      simp only [h0, h1, h2, h3]
      rw [hquads, hrest (i + 1) (quadId + 1) (before ++ [i]) _
          (by rw [List.length_append, List.length_singleton, hbefore]) (by omega),
        expectedIndices, if_pos rfl, hstart, List.append_assoc]

/-- C15: for face counts that are all 3 or 4 and combined indices `v` as many as the sum of
the counts, the first loop of `mesh()` does not fail, and with its quads the conversion of
quads to triangles produces, face after face, `[v[s], v[s+1], v[s+2]]` for a triangle and
`[v[s], v[s+1], v[s+2], v[s], v[s+2], v[s+3]]` for a quad, `s` being the sum of the counts
of the faces before; the list has 3 indices per triangle and 6 per quad, and the faces
treated as quads are the faces of count 4. -/
theorem quads_to_triangles (c v : List Nat) (hc : ∀ count ∈ c, count = 3 ∨ count = 4)
    (hv : v.length = c.sum) :
    ∃ vertexCount quads,
      countVertices c 0 0 [] = .ok (vertexCount, quads) ∧
      triangulate v quads c.length 0 0 [] = some (expectedIndices v c 0) ∧
      (expectedIndices v c 0).length = 3 * c.count 3 + 6 * c.count 4 ∧
      (∀ i, i ∈ quads ↔ c.get? i = some 4) := by
  refine ⟨_, _, countVertices_ok c hc 0 0 [] (by decide), ?_, length_expectedIndices v c 0 hc,
    ?_⟩
  · have h := triangulate_spec v c hc 0 0 [] [] rfl (by rw [hv]; omega)
    rw [List.nil_append] at h
    exact h
  · intro i
    rw [List.nil_append, mem_quadPositions c 0 i, Nat.sub_zero]
    exact ⟨fun h => h.2, fun h => ⟨Nat.zero_le _, h⟩⟩

/-- C15, evaluated: a triangle followed by a quad over the combined indices 10, ..., 16
gives the triangle 10, 11, 12 and the two triangles 13, 14, 15 and 13, 15, 16. -/
theorem quads_to_triangles_witness :
    expectedIndices [10, 11, 12, 13, 14, 15, 16] [3, 4] 0 =
      [10, 11, 12, 13, 14, 15, 13, 15, 16] ∧
    ∃ vertexCount quads,
      countVertices [3, 4] 0 0 [] = .ok (vertexCount, quads) ∧
      triangulate [10, 11, 12, 13, 14, 15, 16] quads [3, 4].length 0 0 [] =
        some (expectedIndices [10, 11, 12, 13, 14, 15, 16] [3, 4] 0) ∧
      (expectedIndices [10, 11, 12, 13, 14, 15, 16] [3, 4] 0).length =
        3 * [3, 4].count 3 + 6 * [3, 4].count 4 ∧
      (∀ i, i ∈ quads ↔ [3, 4].get? i = some 4) :=
  ⟨by decide,
   quads_to_triangles [3, 4] [10, 11, 12, 13, 14, 15, 16] (by decide) (by decide)⟩

end ColladaImporter

